import Mathlib

/-!
# Verification of the Titanium code-processor core (base value / context layers)

This file gives a shallow embedding, in Lean 4, of the parts of the
code-processor's base library that the checked claims are about:

* the JavaScript number semantics needed by `sameValue`, `strictEquals` and
  `toInt32` (NaN, signed zeros, finite values modelled as exact rationals —
  every operation used by these functions is exact on IEEE doubles, so the
  rational model is faithful for double inputs);
* the variant value model (`type` tags, `className`, per-value creation
  closures);
* property descriptors and the descriptor predicates of §8.10;
* the object property machinery: `_addProperty`, `getOwnProperty`,
  `getProperty`, `canPut`, `put`, `get`, `delete` and the full §8.12.9
  `defineOwnProperty`, plus the `ArrayType` override;
* declarative environment records with `setMutableBinding`;
* the execution-context stack with the ambiguous-block counter and the
  skipped-mode stacks (`isAmbiguousBlock`, `isSkippedMode`,
  `isLocalSkippedMode`, `getSkippedSection`, `_isLocal`, `_isSkippedLocal`,
  `_updateClosure`, `processInSkippedMode`);
* the exception helpers `handleRecoverableNativeException` / `inTryCatch`;
* `putValue` on references.

Host-level JavaScript exceptions (the `throw new Error(...)` sentinels and the
`throwNativeException` flow) are modelled as explicit `thrown` outcomes.
Calls into analyzed-program functions (accessor getters/setters) are not
interpreted; they are surfaced as explicit `setterCall`/`getterCall` results.
-/

namespace TiCP

/-! ## JavaScript numbers

A double is modelled as NaN, one of the infinities, the negative zero, or a
finite value `fin q` (`fin 0` is the positive zero).  All arithmetic the
embedded functions perform on finite doubles (`Math.floor`, `Math.abs`,
unary negation, `%`, subtraction of 2^32, comparisons) is exact in IEEE 754
for the operand ranges involved, so modelling finite doubles by rationals is
faithful. -/

inductive JSNum where
  | nan : JSNum
  | negZero : JSNum
  | fin (q : ℚ) : JSNum
  | posInf : JSNum
  | negInf : JSNum
deriving DecidableEq, Repr

namespace JSNum

/-- JavaScript `===` (also `==`) on two numbers: NaN is unequal to
everything (itself included) and `+0 === -0`. -/
def jsEq : JSNum → JSNum → Bool
  | nan, _ => false
  | _, nan => false
  | negZero, negZero => true
  | negZero, fin b => decide (b = 0)
  | fin a, negZero => decide (a = 0)
  | fin a, fin b => decide (a = b)
  | posInf, posInf => true
  | negInf, negInf => true
  | _, _ => false

/-- The §9.12 SameValue comparison on two numbers (NaN equals NaN, and the
two zeros differ).  This follows the specification's words; it is used to
contrast with the implementation's `sameValue`. -/
def sameValue912 : JSNum → JSNum → Bool
  | nan, nan => true
  | nan, _ => false
  | _, nan => false
  | negZero, negZero => true
  | negZero, fin _ => false
  | fin _, negZero => false
  | fin a, fin b => decide (a = b)
  | posInf, posInf => true
  | negInf, negInf => true
  | _, _ => false

/-- JavaScript `isNaN` restricted to numbers. -/
def jsIsNaN : JSNum → Bool
  | nan => true
  | _ => false

/-- JavaScript `x < 0` (`-0 < 0` is false). -/
def jsLtZero : JSNum → Bool
  | fin q => decide (q < 0)
  | negInf => true
  | _ => false

/-- JavaScript `Math.abs`. -/
def jsAbs : JSNum → JSNum
  | nan => nan
  | negZero => fin 0
  | fin q => fin |q|
  | posInf => posInf
  | negInf => posInf

/-- JavaScript `Math.floor`. -/
def jsFloor : JSNum → JSNum
  | nan => nan
  | negZero => negZero
  | fin q => fin ⌊q⌋
  | posInf => posInf
  | negInf => negInf

/-- Multiplication by the sign `s ∈ {1, -1}` computed by
`value < 0 ? -1 : 1`; `-1 * 0` is the negative zero. -/
def jsMulSign (neg : Bool) : JSNum → JSNum
  | nan => nan
  | negZero => if neg then fin 0 else negZero
  | fin q => if neg then (if q = 0 then negZero else fin (-q)) else fin q
  | posInf => if neg then negInf else posInf
  | negInf => if neg then posInf else negInf

/-- Truncation toward zero of a rational, as used by the JavaScript `%`
operator. -/
def truncToward0 (q : ℚ) : ℤ :=
  if 0 ≤ q then ⌊q⌋ else ⌈q⌉

/-- JavaScript `x % m` for a positive constant `m`: the remainder takes the
sign of the dividend, and a zero remainder of a negative dividend (and the
negative zero itself) give `-0`. -/
def jsRem (x : JSNum) (m : ℚ) : JSNum :=
  match x with
  | nan => nan
  | posInf => nan
  | negInf => nan
  | negZero => negZero
  | fin q =>
      let r := q - m * (truncToward0 (q / m) : ℚ)
      if r = 0 ∧ q < 0 then negZero else fin r

/-- JavaScript `x >= c` against a positive rational constant. -/
def jsGeConst (x : JSNum) (c : ℚ) : Bool :=
  match x with
  | nan => false
  | negZero => decide ((0 : ℚ) ≥ c)
  | fin q => decide (q ≥ c)
  | posInf => true
  | negInf => false

/-- JavaScript subtraction of a constant, used only on finite positive
operands (`newNumber.value -= Math.pow(2, 32)`). -/
def jsSubConst (x : JSNum) (c : ℚ) : JSNum :=
  match x with
  | fin q => fin (q - c)
  | negZero => fin (-c)
  | y => y

end JSNum

open JSNum

/-- The numeric core of `toInt32` (docgen 8214-8229).  `toNumber` applied to
a `NumberType` copies its value unchanged (docgen `toNumber`, case
`'Number'`), so on Number inputs `toInt32` computes exactly this function of
the wrapped number. -/
def toInt32Num (x : JSNum) : JSNum :=
  if jsIsNaN x || x == JSNum.posInf || x == JSNum.negInf then JSNum.fin 0
  else
    let neg := jsLtZero x
    let t := jsMulSign neg (jsFloor (jsAbs x))
    let r := jsRem t (2 ^ 32)
    if jsGeConst r (2 ^ 31) then jsSubConst r (2 ^ 32) else r

/-- A number is a finite double: the negative zero or a finite value. -/
def isFiniteNum : JSNum → Bool
  | JSNum.negZero => true
  | JSNum.fin _ => true
  | _ => false

/-! ## Values

Every engine value is a `BaseType` carrying a `type` tag, a `className` and
the creation closure (`this._closure = getCurrentContext()`; only its
`lexicalEnvironment` is ever consulted, so the closure is modelled by the
lexical-environment id).  Objects, Unknowns and References have identity;
it is modelled by a numeric id (two values with distinct ids are distinct
host objects). -/

inductive Value where
  | undefV (closure : Nat)
  | nullV (closure : Nat)
  | boolV (b : Bool) (closure : Nat)
  | numV (n : JSNum) (closure : Nat)
  | strV (s : String) (closure : Nat)
  | objV (id : Nat) (closure : Nat)
  | unknownV (id : Nat) (closure : Nat)
  | refV (id : Nat) (closure : Nat)
deriving DecidableEq, Repr

namespace Value

/-- The `type` function (docgen 197): returns the value's `type` tag. -/
def typeOf : Value → String
  | undefV _ => "Undefined"
  | nullV _ => "Null"
  | boolV _ _ => "Boolean"
  | numV _ _ => "Number"
  | strV _ _ => "String"
  | objV _ _ => "Object"
  | unknownV _ _ => "Unknown"
  | refV _ _ => "Reference"

/-- The creation closure's lexical environment. -/
def closureOf : Value → Nat
  | undefV c => c
  | nullV c => c
  | boolV _ c => c
  | numV _ c => c
  | strV _ c => c
  | objV _ c => c
  | unknownV _ c => c
  | refV _ c => c

/-- Replace the creation closure (effect of `_updateClosure`). -/
def withClosure : Value → Nat → Value
  | undefV _, c => undefV c
  | nullV _, c => nullV c
  | boolV b _, c => boolV b c
  | numV n _, c => numV n c
  | strV s _, c => strV s c
  | objV i _, c => objV i c
  | unknownV i _, c => unknownV i c
  | refV i _, c => refV i c

/-- Whether the value is an `UndefinedType` instance (`className ===
'Undefined'` holds exactly for these). -/
def isUndefined : Value → Bool
  | undefV _ => true
  | _ => false

/-- `x.value` viewed as NaN-ness, for the Number variant only (any other
variant has a non-NaN or absent `value`). -/
def valueIsNaN : Value → Bool
  | numV n _ => jsIsNaN n
  | _ => false

end Value

open Value

/-- `sameValue` (docgen 120-137).  Arguments may be absent
(`typeof x === 'undefined'`), hence `Option Value`.  For Boolean, Number and
String the comparison is JavaScript `===` on the `value` fields; all other
present values are compared by host identity (`x === y`). -/
def sameValue : Option Value → Option Value → Bool
  | none, none => true
  | none, some _ => false
  | some _, none => false
  | some x, some y =>
      if typeOf x ≠ typeOf y then false
      else if typeOf x = "Undefined" ∨ typeOf x = "Null" then true
      else
        match x, y with
        | boolV a _, boolV b _ => decide (a = b)
        | numV a _, numV b _ => jsEq a b
        | strV a _, strV b _ => decide (a = b)
        -- `return x === y`: host identity, i.e. id equality
        | objV i _, objV j _ => decide (i = j)
        | unknownV i _, unknownV j _ => decide (i = j)
        | refV i _, refV j _ => decide (i = j)
        | x, y => decide (x = y)

/-- `sameValue` as the §9.12 SameValue algorithm would have it (the spec's
words): identical to `sameValue` except that Numbers are compared with
`SameValue` (NaN = NaN, `+0 ≠ -0`).  Used only to contrast with the
implementation. -/
def sameValueSpec912 : Option Value → Option Value → Bool
  | none, none => true
  | none, some _ => false
  | some _, none => false
  | some x, some y =>
      if typeOf x ≠ typeOf y then false
      else if typeOf x = "Undefined" ∨ typeOf x = "Null" then true
      else
        match x, y with
        | boolV a _, boolV b _ => decide (a = b)
        | numV a _, numV b _ => sameValue912 a b
        | strV a _, strV b _ => decide (a = b)
        | objV i _, objV j _ => decide (i = j)
        | unknownV i _, unknownV j _ => decide (i = j)
        | refV i _, refV j _ => decide (i = j)
        | x, y => decide (x = y)

/-- `strictEquals` (docgen 8549-8565).  The `switch` has no case for the
`'Unknown'` and `'Reference'` type tags, so for those the JavaScript
function falls through and returns `undefined`, modelled as `none`. -/
def strictEquals (x y : Value) : Option Bool :=
  if typeOf x ≠ typeOf y then some false
  else
    match x, y with
    | undefV _, undefV _ => some true
    | nullV _, nullV _ => some true
    | boolV a _, boolV b _ => some (decide (a = b))
    | numV a _, numV b _ => some (jsEq a b)
    | strV a _, strV b _ => some (decide (a = b))
    -- case 'Object': `return x === y` (host identity, i.e. id equality)
    | objV i _, objV j _ => some (decide (i = j))
    | _, _ => none

/-! ## Property descriptors

A descriptor record; absent JavaScript fields are `none`
(`typeof desc.f == 'undefined'`).  A full `DataPropertyDescriptor` or
`AccessorPropertyDescriptor` instance is a `PropDesc` with the respective
fields present. -/

structure PropDesc where
  value : Option Value := none
  writable : Option Bool := none
  get : Option Value := none
  set : Option Value := none
  enumerable : Option Bool := none
  configurable : Option Bool := none
deriving DecidableEq, Repr

namespace PropDesc

/-- JavaScript truthiness of an attribute field (`undefined` is falsy). -/
def truthy : Option Bool → Bool
  | some b => b
  | none => false

/-- `isDataDescriptor` (docgen 800-809); `none` is an absent descriptor. -/
def isDataDescriptor : Option PropDesc → Bool
  | none => false
  | some d => d.value.isSome || d.writable.isSome

/-- `isAccessorDescriptor` (docgen 812-821). -/
def isAccessorDescriptor : Option PropDesc → Bool
  | none => false
  | some d => d.get.isSome || d.set.isSome

/-- `isGenericDescriptor` (docgen 824-830). -/
def isGenericDescriptor : Option PropDesc → Bool
  | none => false
  | some d => !isAccessorDescriptor (some d) && !isDataDescriptor (some d)

/-- `sameDesc` (docgen 836-846).  Note: the accessor/accessor branch of the
source computes its conjunction but falls through with no `return`, so the
function yields `undefined` there; every caller only tests truthiness, so
that branch is modelled as `false`. -/
def sameDesc (x y : PropDesc) : Bool :=
  if isDataDescriptor (some x) && isDataDescriptor (some y) then
    x.configurable == y.configurable && x.enumerable == y.enumerable &&
      x.writable == y.writable && sameValue x.value y.value
  else if isAccessorDescriptor (some x) && isAccessorDescriptor (some y) then
    false
  else
    false

end PropDesc

open PropDesc

/-! ## Lexical environments, execution contexts, options

A lexical environment is identified by an id into `CtxState.envs`; it holds
its environment record's data (`_ambiguousContext`, `_skippedModeStack`, the
declarative bindings) and the `outer` environment id.  Skipped-mode stacks
are lists with the most recently pushed section id at the head.  The context
stack is a list with the current (top) context at the head. -/

/-- A declarative binding: `{ value, alternateValues, isDeletable,
isMutable, isInitialized }`.  `alternateValues` maps a skipped-section id
(or the `undefined` key) to a value.  `isInitialized` is absent on mutable
bindings. -/
structure Binding where
  value : Value
  alternateValues : List (Option Nat × Value) := []
  isDeletable : Bool := false
  isMutable : Bool := true
  isInitialized : Option Bool := none
deriving DecidableEq, Repr

/-- An environment record together with its lexical environment's `outer`
link. -/
structure LexEnv where
  ambiguousContext : Bool := false
  skippedModeStack : List Nat := []
  bindings : List (String × Binding) := []
  outer : Option Nat := none
deriving DecidableEq, Repr

/-- An execution context: its lexical environment id and the
`_ambiguousBlock` nesting counter. -/
structure Ctx where
  lexicalEnvironment : Nat
  ambiguousBlock : Int := 0
deriving DecidableEq, Repr

/-- The process-wide state the embedded operations read: the environment
heap, the context stack (head = current context), the configuration options,
the try-catch counter, the skipped-section id counter, the blacklist flag of
the current file, and the recursion-unroll flag. -/
structure CtxState where
  envs : List LexEnv
  stack : List Ctx
  nativeExceptionRecovery : Bool := false
  exactMode : Bool := false
  tryCatch : Int := 0
  skippedModeCounter : Nat := 0
  blacklisted : Bool := false
  inRecursionUnroll : Bool := false
deriving DecidableEq, Repr

namespace CtxState

/-- `getCurrentContext` (docgen 9748-9750): the top of the context stack. -/
def currentCtx (s : CtxState) : Ctx :=
  s.stack.headD ⟨0, 0⟩

/-- The environment record data of environment `i`. -/
def envAt (s : CtxState) (i : Nat) : LexEnv :=
  s.envs.getD i {}

/-- The current context's lexical environment id. -/
def curEnv (s : CtxState) : Nat :=
  (s.currentCtx).lexicalEnvironment

/-- `isAmbiguousBlock` (docgen 9611-9614): truthiness of the current
context's `_ambiguousBlock` counter. -/
def isAmbiguousBlock (s : CtxState) : Bool :=
  decide ((s.currentCtx).ambiguousBlock ≠ 0)

/-- `isLocalSkippedMode` (docgen 9677-9679): the current context's
environment record has an active skipped section. -/
def isLocalSkippedMode (s : CtxState) : Bool :=
  decide ((s.envAt s.curEnv).skippedModeStack ≠ [])

/-- `isSkippedMode` (docgen 9659-9668): some context on the stack has an
environment record with an active skipped section. -/
def isSkippedMode (s : CtxState) : Bool :=
  s.stack.any fun c => decide ((s.envAt c.lexicalEnvironment).skippedModeStack ≠ [])

/-- `getSkippedSection` (docgen 9689-9699): walking the context stack from
the top, the innermost active skipped-section id; `none` models the
JavaScript `undefined` return when no section is active. -/
def getSkippedSection (s : CtxState) : Option Nat :=
  (s.stack.find? fun c =>
    decide ((s.envAt c.lexicalEnvironment).skippedModeStack ≠ [])).bind
    fun c => (s.envAt c.lexicalEnvironment).skippedModeStack.head?

/-- The chain of environment ids from `e` through `outer` links.  Outer
chains of the engine are acyclic and of length at most the number of
environments, so the fuel `s.envs.length + 1` never runs out on
representable states. -/
def envChain (s : CtxState) : Nat → Nat → List Nat
  | 0, _ => []
  | fuel + 1, e =>
      e :: match (s.envAt e).outer with
           | none => []
           | some o => s.envChain fuel o

/-- `BaseType.prototype._isLocal` (docgen 239-250): walk the current
context's scope chain; `true` if the value's closure environment is reached
first, `false` if an `_ambiguousContext` record is reached first, `true` if
the chain ends. -/
def isLocalVal (s : CtxState) (closure : Nat) : Bool :=
  go s closure (s.envs.length + 1) s.curEnv
where
  go (s : CtxState) (closure fuel e : Nat) : Bool :=
    match fuel with
    | 0 => true
    | fuel + 1 =>
        if e = closure then true
        else if (s.envAt e).ambiguousContext then false
        else
          match (s.envAt e).outer with
          | none => true
          | some o => go s closure fuel o

/-- `BaseType.prototype._isSkippedLocal` (docgen 256-268): walk the context
stack from the top; `true` if a context whose lexical environment is the
value's closure environment is reached first, `false` if a context with an
active skipped section is reached first, `true` if the stack is
exhausted. -/
def isSkippedLocalVal (s : CtxState) (closure : Nat) : Bool :=
  go s closure s.stack
where
  go (s : CtxState) (closure : Nat) : List Ctx → Bool
    | [] => true
    | c :: rest =>
        if c.lexicalEnvironment = closure then true
        else if decide ((s.envAt c.lexicalEnvironment).skippedModeStack ≠ []) then false
        else go s closure rest

/-- `BaseType.prototype._updateClosure` (docgen 275-285): if the target
closure's lexical environment occurs in the value's closure chain, the
value's closure becomes the target closure. -/
def updateClosure (s : CtxState) (v : Value) (targetEnv : Nat) : Value :=
  if targetEnv ∈ s.envChain (s.envs.length + 1) (closureOf v) then
    withClosure v targetEnv
  else v

/-- `inTryCatch` (docgen 9743-9745): truthiness of the try-catch counter. -/
def inTryCatch (s : CtxState) : Bool :=
  decide (s.tryCatch ≠ 0)

/-- Replace environment `i`. -/
def setEnv (s : CtxState) (i : Nat) (e : LexEnv) : CtxState :=
  { s with envs := s.envs.set i e }

end CtxState

open CtxState

/-- A freshly constructed `UnknownType` value.  The constructor aborts the
whole analysis in exact mode (docgen 788-795); theorems about code paths
that construct an Unknown therefore assume `exactMode = false`.  Fresh
Unknowns get id 0: their identity is never consulted before they are
stored. -/
def mkUnknown (s : CtxState) : Value :=
  Value.unknownV 0 s.curEnv

/-- Plugin-observable events, in firing order. -/
inductive REvent where
  | propertyReferenced (name : String)
  | propertySet (name : String)
  | propertyDefined (name : String)
  | propertyDeleted (name : String)
  | undeclaredGlobalVariableCreated (name : String)
  | errorReported (kind : String)
deriving DecidableEq, Repr

/-- The three possible behaviours of `handleRecoverableNativeException`. -/
inductive HREAction where
  | doNothing
  | report
  | throwNative
deriving DecidableEq, Repr

/-- `handleRecoverableNativeException` (docgen 11625-11633): outside skipped
mode, report when `nativeExceptionRecovery && !exactMode`, otherwise throw
the native exception; inside skipped mode do nothing.  The try-catch counter
is not consulted. -/
def handleRecoverableNativeException (s : CtxState) : HREAction :=
  if !s.isSkippedMode then
    if s.nativeExceptionRecovery && !s.exactMode then HREAction.report
    else HREAction.throwNative
  else HREAction.doNothing

/-! ## Objects

An `ObjectType` instance: its `type` tag (`'Object'`, or `'Unknown'` after
`convertToUnknown`), the `extensible` flag, the creation closure, the
`_properties` array and the `objectPrototype` link.  The prototype is itself
a value — an object, a `NullType` or an `UnknownType` — represented here by
a nested `ObjState` whose `typeTag` is `'Null'` or `'Unknown'` in the latter
cases; `none` models an absent (falsy) prototype. -/

/-- A slot in a property entry: either a proper descriptor, or the raw
placeholder `new UndefinedType()` that `_addProperty` installs as
`entry.value` when the entry is created while the write is routed to the
alternate map. -/
inductive PSlot where
  | rawValue (v : Value)
  | pdesc (d : PropDesc)
deriving DecidableEq, Repr

/-- One element of `_properties`: `{ value, alternateValues, name }`. -/
structure PEntry where
  name : String
  value : PSlot
  alternateValues : List (Option Nat × PSlot) := []
deriving DecidableEq, Repr

inductive ObjState where
  | mk (typeTag : String) (extensible : Bool) (closure : Nat)
      (props : List PEntry) (proto : Option ObjState)
deriving Repr

namespace ObjState

def typeTag : ObjState → String
  | mk t _ _ _ _ => t

def extensible : ObjState → Bool
  | mk _ e _ _ _ => e

def closure : ObjState → Nat
  | mk _ _ c _ _ => c

def props : ObjState → List PEntry
  | mk _ _ _ ps _ => ps

def proto : ObjState → Option ObjState
  | mk _ _ _ _ pr => pr

/-- Replace the property list. -/
def withProps : ObjState → List PEntry → ObjState
  | mk t e c _ pr, ps => mk t e c ps pr

end ObjState

open ObjState

/-- Look up the entry named `p` in `_properties`
(`_lookupProperty`, docgen 292-301, reading the primary slot). -/
def lookupEntry (o : ObjState) (p : String) : Option PEntry :=
  o.props.find? fun e => e.name == p

/-- Update an association list at a key. -/
def assocSet {α β : Type} [BEq α] (l : List (α × β)) (k : α) (v : β) : List (α × β) :=
  if l.any fun kv => kv.1 == k then
    l.map fun kv => if kv.1 == k then (k, v) else kv
  else l ++ [(k, v)]

/-- `BaseType.prototype._addProperty` (docgen 308-331): find or create the
entry, then store the descriptor in the primary slot, or — when the current
context is in skipped mode or the object is not skipped-local — in the
alternate map under the current skipped-section id. -/
def addProperty (s : CtxState) (o : ObjState) (p : String) (d : PropDesc) : ObjState :=
  let routeAlt := s.isLocalSkippedMode || !s.isSkippedLocalVal o.closure
  let upd : PEntry → PEntry := fun e =>
    if routeAlt then
      { e with alternateValues := assocSet e.alternateValues s.getSkippedSection (PSlot.pdesc d) }
    else { e with value := PSlot.pdesc d }
  match lookupEntry o p with
  | some _ =>
      o.withProps (o.props.map fun e => if e.name == p then upd e else e)
  | none =>
      o.withProps (o.props ++ [upd ⟨p, PSlot.rawValue (Value.undefV s.curEnv), []⟩])

/-- `BaseType.prototype._removeProperty` (docgen 337-346). -/
def removeProperty (o : ObjState) (p : String) : ObjState :=
  o.withProps (o.props.filter fun e => !(e.name == p))

/-- `copyDescriptor` inside `getOwnProperty` (docgen 960-973).  Applied to
the raw placeholder value a skipped-mode `_addProperty` leaves in the
primary slot, every field read is `undefined`, producing the empty
descriptor. -/
def copySlot (sl : PSlot) : PropDesc :=
  match sl with
  | PSlot.pdesc d =>
      if isDataDescriptor (some d) then
        { value := d.value, writable := d.writable,
          enumerable := d.enumerable, configurable := d.configurable }
      else
        { get := d.get, set := d.set,
          enumerable := d.enumerable, configurable := d.configurable }
  | PSlot.rawValue _ => {}

/-- `ObjectType.prototype.getOwnProperty` (docgen 955-1000), primary
(`alternate = false`) path: for an Unknown-converted object a synthetic
Unknown descriptor, otherwise a copy of the stored descriptor. -/
def getOwnProperty (s : CtxState) (o : ObjState) (p : String) : Option PropDesc :=
  if o.typeTag == "Unknown" then
    some { value := some (mkUnknown s), writable := some false,
           enumerable := some true, configurable := some false }
  else (lookupEntry o p).map fun e => copySlot e.value

mutual

/-- `ObjectType.prototype.getProperty` (docgen 1012-1019): own property
first, then the prototype chain, stopping at an absent or Null prototype.
The source also stops when `objectPrototype === this`; an object is never
structurally identical to its own strict subterm, so that self-reference
guard always passes in this representation and is omitted. -/
def getProperty (s : CtxState) : ObjState → String → Option PropDesc
  | ObjState.mk t e c ps pr, p =>
      match getOwnProperty s (ObjState.mk t e c ps pr) p with
      | some d => some d
      | none => getPropertyProto s pr p

/-- The prototype-chain step of `getProperty`: an absent or Null prototype
yields no descriptor, otherwise the lookup recurses into the prototype. -/
def getPropertyProto (s : CtxState) : Option ObjState → String → Option PropDesc
  | none, _ => none
  | some q, p => if q.typeTag == "Null" then none else getProperty s q p

end

/-- Truthiness of `desc.set && desc.set.className != 'Undefined'` (and of
the same test on `get`): a present setter that is not an `UndefinedType`. -/
def realFn : Option Value → Bool
  | none => false
  | some v => !v.isUndefined

/-- The result of `canPut`: a boolean, or the string `'Unknown'`. -/
inductive CanPutR where
  | b (c : Bool)
  | unknown
deriving DecidableEq, Repr

/-- `ObjectType.prototype.canPut` (docgen 1085-1115). -/
def canPut (s : CtxState) : ObjState → String → CanPutR
  | o@(ObjState.mk _ _ _ _ pr), p =>
      match getOwnProperty s o p with
      | some desc =>
          if isAccessorDescriptor (some desc) then CanPutR.b (realFn desc.set)
          else CanPutR.b (truthy desc.writable)
      | none =>
          match pr with
          | some q =>
              if q.typeTag == "Unknown" then CanPutR.unknown
              else if q.typeTag == "Null" then CanPutR.b o.extensible
              else
                match getProperty s q p with
                | none => CanPutR.b o.extensible
                | some inherited =>
                    if isAccessorDescriptor (some inherited) then
                      CanPutR.b (realFn inherited.set)
                    else CanPutR.b (o.extensible && truthy inherited.writable)
          | none => CanPutR.b o.extensible

/-! ## defineOwnProperty (§8.12.9, docgen 1252-1403) -/

/-- The keys present on the descriptor argument (`Object.keys(desc)`),
captured before the data-descriptor pre-pass mutates `desc.value`. -/
structure KeySet where
  value : Bool
  writable : Bool
  get : Bool
  set : Bool
  enumerable : Bool
  configurable : Bool
deriving DecidableEq, Repr

def keysOf (d : PropDesc) : KeySet :=
  ⟨d.value.isSome, d.writable.isSome, d.get.isSome, d.set.isSome,
    d.enumerable.isSome, d.configurable.isSome⟩

def KeySet.isEmpty (k : KeySet) : Bool :=
  !k.value && !k.writable && !k.get && !k.set && !k.enumerable && !k.configurable

/-- The final `for (i in descKeys) current[descKeys[i]] = desc[descKeys[i]]`
loop: fields listed in the (stale) key set are copied from the mutated
descriptor onto the base descriptor. -/
def mergeFields (base desc : PropDesc) (ks : KeySet) : PropDesc :=
  { value := if ks.value then desc.value else base.value,
    writable := if ks.writable then desc.writable else base.writable,
    get := if ks.get then desc.get else base.get,
    set := if ks.set then desc.set else base.set,
    enumerable := if ks.enumerable then desc.enumerable else base.enumerable,
    configurable := if ks.configurable then desc.configurable else base.configurable }

/-- The descriptor stored by the early data-descriptor branch: a fresh
`DataPropertyDescriptor` (all attributes `false`), the present attributes
copied from `desc`, and the value replaced by a fresh Unknown. -/
def buildUnknownDataProp (s : CtxState) (desc : PropDesc) : PropDesc :=
  { value := some (mkUnknown s),
    writable := some (desc.writable.getD false),
    enumerable := some (desc.enumerable.getD false),
    configurable := some (desc.configurable.getD false) }

/-- The descriptor stored when a new property is created from an accessor
descriptor (fresh `AccessorPropertyDescriptor`, present fields copied). -/
def buildNewAccProp (desc : PropDesc) : PropDesc :=
  { get := desc.get, set := desc.set,
    enumerable := some (desc.enumerable.getD false),
    configurable := some (desc.configurable.getD false) }

/-- The descriptor stored when a new property is created from a data or
generic descriptor (fresh `DataPropertyDescriptor`, present fields
copied; the default value is a fresh `UndefinedType`). -/
def buildNewDataProp (s : CtxState) (desc : PropDesc) : PropDesc :=
  { value := some (desc.value.getD (Value.undefV s.curEnv)),
    writable := some (desc.writable.getD false),
    enumerable := some (desc.enumerable.getD false),
    configurable := some (desc.configurable.getD false) }

/-- Result of `defineOwnProperty`: the returned boolean with the updated
object and fired events, or a thrown native exception (via
`handleRecoverableNativeException` in non-recovery configurations). -/
inductive DOPResult where
  | ret (b : Bool) (o : ObjState) (evs : List REvent)
  | thrownNative (excType : String) (o : ObjState) (evs : List REvent)
deriving Repr

/-- A failure point of `defineOwnProperty`: with `throwFlag`, dispatch on
`handleRecoverableNativeException` (report = `errorReported` event, then
`return false`; throw = native exception); without it, just
`return false`. -/
def dopFail (s : CtxState) (o : ObjState) (evs : List REvent) (throwFlag : Bool) : DOPResult :=
  if throwFlag then
    match handleRecoverableNativeException s with
    | HREAction.throwNative => DOPResult.thrownNative "TypeError" o evs
    | HREAction.report => DOPResult.ret false o (evs ++ [REvent.errorReported "TypeError"])
    | HREAction.doNothing => DOPResult.ret false o evs
  else DOPResult.ret false o evs

/-- The early branch's test (docgen 1261): the (defaulted, closure-updated)
value is Unknown, or is not local to the current scope, or the current block
is ambiguous. -/
def dataDescForcesUnknown (s : CtxState) (dv : Value) : Bool :=
  typeOf dv == "Unknown" || !s.isLocalVal (closureOf dv) || s.isAmbiguousBlock

/-- The descriptor-kind analysis of §8.12.9 steps 7-11 (docgen 1342-1398):
`none` marks the TypeError failure points; otherwise the descriptor that the
present fields of `desc` are merged onto. -/
def dopKindStep (s : CtxState) (desc cur : PropDesc) : Option PropDesc :=
  if isGenericDescriptor (some desc) then some desc
  else if isDataDescriptor (some desc) != isDataDescriptor (some cur) then
    if !truthy cur.configurable then none
    else if isDataDescriptor (some cur) then
      some { get := none, set := none,
             enumerable := cur.enumerable, configurable := cur.configurable }
    else
      some { value := some (Value.undefV s.curEnv), writable := some false,
             enumerable := cur.enumerable, configurable := cur.configurable }
  else if isDataDescriptor (some desc) && isDataDescriptor (some cur) then
    if !truthy cur.configurable && !truthy cur.writable then
      if truthy desc.writable then none
      else if desc.value.isSome && !sameDesc desc cur then none
      else some cur
    else some cur
  else
    if !truthy cur.configurable && desc.set.isSome then
      if !sameValue desc.set cur.set then none
      else if !sameValue desc.get cur.get then none
      else some cur
    else some cur

/-- `defineOwnProperty` on an existing property (docgen 1325-1402). -/
def dopExisting (s : CtxState) (o : ObjState) (p : String) (desc cur : PropDesc)
    (ks : KeySet) (tf : Bool) (evs : List REvent) : DOPResult :=
  if ks.isEmpty then DOPResult.ret true o evs
  else if sameDesc cur desc then DOPResult.ret true o evs
  else if !truthy cur.configurable &&
      (truthy desc.configurable ||
        (desc.enumerable.isSome && desc.enumerable != cur.enumerable)) then
    dopFail s o evs tf
  else
    match dopKindStep s desc cur with
    | none => dopFail s o evs tf
    | some b => DOPResult.ret true (addProperty s o p (mergeFields b desc ks)) evs

/-- `ObjectType.prototype.defineOwnProperty` (docgen 1252-1403). -/
def defineOwnProperty (s : CtxState) (o : ObjState) (p : String) (desc0 : PropDesc)
    (throwFlag suppressEvent : Bool) : DOPResult :=
  let current := getOwnProperty s o p
  let ks := keysOf desc0
  -- `desc.value = desc.value || new UndefinedType(); desc.value._updateClosure(this._closure)`
  let desc :=
    if isDataDescriptor (some desc0) then
      { desc0 with
        value := some (s.updateClosure (desc0.value.getD (Value.undefV s.curEnv)) o.closure) }
    else desc0
  if isDataDescriptor (some desc0) &&
      dataDescForcesUnknown s (desc.value.getD (Value.undefV s.curEnv)) then
    DOPResult.ret true (addProperty s o p (buildUnknownDataProp s desc)) []
  else if current.isNone && !o.extensible then
    dopFail s o [] throwFlag
  else
    let evs := if !suppressEvent then [REvent.propertyDefined p] else []
    match current with
    | none =>
        -- here `this.extensible` holds
        if isAccessorDescriptor (some desc) then
          DOPResult.ret true (addProperty s o p (buildNewAccProp desc)) evs
        else
          DOPResult.ret true (addProperty s o p (buildNewDataProp s desc)) evs
    | some cur => dopExisting s o p desc cur ks throwFlag evs

/-! ## put, delete, get (docgen 1035-1229) -/

/-- Result of `put`: normal return, a delegated accessor-setter invocation
(`desc.set.callFunction(this, [v])`, not interpreted further), or a thrown
native exception. -/
inductive PutResult where
  | ret (o : ObjState) (evs : List REvent)
  | setterCall (setter : Option Value) (o : ObjState) (evs : List REvent)
  | thrownNative (excType : String) (o : ObjState) (evs : List REvent)
deriving Repr

/-- `ObjectType.prototype.put` (docgen 1045-1083).  Note that the
`!canPut && throwFlag` branch reports and defines the property as Unknown
but does not return, falling through into the normal write logic. -/
def put (s : CtxState) (o : ObjState) (p : String) (v : Value)
    (throwFlag suppressEvent : Bool) : PutResult :=
  match canPut s o p with
  | CanPutR.unknown => PutResult.ret o []
  | CanPutR.b cp =>
      if !cp && !throwFlag then PutResult.ret o []
      else
        let pre : DOPResult :=
          if !cp then
            match handleRecoverableNativeException s with
            | HREAction.throwNative => DOPResult.thrownNative "TypeError" o []
            | HREAction.report =>
                match defineOwnProperty s o p { value := some (mkUnknown s) }
                    throwFlag suppressEvent with
                | DOPResult.ret _ o1 evs1 =>
                    DOPResult.ret true o1 (REvent.errorReported "TypeError" :: evs1)
                | DOPResult.thrownNative t o1 evs1 =>
                    DOPResult.thrownNative t o1 (REvent.errorReported "TypeError" :: evs1)
            | HREAction.doNothing =>
                defineOwnProperty s o p { value := some (mkUnknown s) } throwFlag suppressEvent
          else DOPResult.ret true o []
        match pre with
        | DOPResult.thrownNative t o1 evs1 => PutResult.thrownNative t o1 evs1
        | DOPResult.ret _ o1 evs1 =>
            let evs2 := evs1 ++ (if !suppressEvent then [REvent.propertySet p] else [])
            if isDataDescriptor (getOwnProperty s o1 p) then
              match defineOwnProperty s o1 p { value := some v } throwFlag suppressEvent with
              | DOPResult.ret _ o2 evs3 => PutResult.ret o2 (evs2 ++ evs3)
              | DOPResult.thrownNative t o2 evs3 => PutResult.thrownNative t o2 (evs2 ++ evs3)
            else
              let desc := getProperty s o1 p
              if isAccessorDescriptor desc then
                PutResult.setterCall ((desc.getD {}).set) o1 evs2
              else
                match defineOwnProperty s o1 p
                    { value := some v, writable := some true,
                      enumerable := some true, configurable := some true }
                    throwFlag suppressEvent with
                | DOPResult.ret _ o2 evs3 => PutResult.ret o2 (evs2 ++ evs3)
                | DOPResult.thrownNative t o2 evs3 => PutResult.thrownNative t o2 (evs2 ++ evs3)

/-- Result of `delete`: the returned boolean, or the native TypeError thrown
via `throwNativeException` (which always throws). -/
inductive DelResult where
  | ret (b : Bool) (o : ObjState) (evs : List REvent)
  | thrownNative (excType : String) (o : ObjState) (evs : List REvent)
deriving Repr

/-- `ObjectType.prototype.delete` (docgen 1149-1167): the `propertyDeleted`
event fires before any check, on every path. -/
def objDelete (s : CtxState) (o : ObjState) (p : String) (throwFlag : Bool) : DelResult :=
  let desc := getOwnProperty s o p
  let evs := [REvent.propertyDeleted p]
  match desc with
  | none => DelResult.ret true o evs
  | some d =>
      if truthy d.configurable then DelResult.ret true (removeProperty o p) evs
      else if throwFlag then DelResult.thrownNative "TypeError" o evs
      else DelResult.ret false o evs

/-- Result of `get`: a value, or a delegated accessor-getter invocation. -/
inductive GetResult where
  | value (v : Value) (evs : List REvent)
  | getterCall (g : Value) (evs : List REvent)
deriving Repr

/-- `ObjectType.prototype.get` (docgen 912-947), primary
(`alternate = false`) path. -/
def objGet (s : CtxState) (o : ObjState) (p : String) : GetResult :=
  let desc := getProperty s o p
  let evs := [REvent.propertyReferenced p]
  match desc with
  | none => GetResult.value (Value.undefV s.curEnv) evs
  | some d =>
      if isDataDescriptor (some d) then
        GetResult.value (d.value.getD (Value.undefV s.curEnv)) evs
      else
        match d.get with
        | some g =>
            if !g.isUndefined then GetResult.getterCall g evs
            else GetResult.value (Value.undefV s.curEnv) evs
        | none => GetResult.value (Value.undefV s.curEnv) evs

/-! ## The ArrayType override (src/lib/base/types/array.js 69-88) -/

/-- `positiveIntegerRegEx = /^\d*$/` — note it also matches the empty
string. -/
def positiveIntegerTest (p : String) : Bool :=
  p.data.all Char.isDigit

/-- The exact mathematical integer a string of digits denotes; the empty
string gives NaN, modelled as `none`.  `parseInt` itself returns this value
converted to a double: see `parseIntDigits`. -/
def parseIntExact (p : String) : Option Nat :=
  if p.data.isEmpty then none
  else some (p.data.foldl (fun acc c => acc * 10 + (c.toNat - '0'.toNat)) 0)

/-- The least exponent at or above the accumulator `e` with
`n < 2 ^ (53 + e)`, found within `fuel` steps (971 steps cover every
natural below the double overflow threshold). -/
def ulpExpSearch (n : Nat) : Nat → Nat → Nat
  | 0, e => e
  | fuel + 1, e => if n < 2 ^ (53 + e) then e else ulpExpSearch n fuel (e + 1)

/-- A nonnegative exact integer converted to the IEEE-754 double it rounds
to (round half to even), as the exact natural that double denotes; `none`
is +Infinity.  Integers up to `2^53` are exact; from the overflow
threshold `2^1024 - 2^970` on, the conversion gives +Infinity. -/
def roundNatToDoubleNat (n : Nat) : Option Nat :=
  if n < 2 ^ 53 then some n
  else if (2 ^ 97) ^ 10 * (2 ^ 54 - 1) ≤ n then none  -- 2 ^ 1024 - 2 ^ 970
  else
    let e := ulpExpSearch n 971 1
    let ulp := 2 ^ e
    let q := n / ulp
    let r := n % ulp
    let m :=
      if 2 * r < ulp then q
      else if ulp < 2 * r then q + 1
      else if q % 2 = 0 then q else q + 1
    some (m * ulp)

/-- The same conversion as a `JSNum`. -/
def roundNatToDouble (n : Nat) : JSNum :=
  match roundNatToDoubleNat n with
  | some m => JSNum.fin (m : ℚ)
  | none => JSNum.posInf

/-- `parseInt(p, 10)` on a string of digits: the exact integer value
rounded to the nearest representable double; the empty string gives NaN,
modelled as `none`. -/
def parseIntDigits (p : String) : Option JSNum :=
  (parseIntExact p).map roundNatToDouble

/-- `x + 1` in doubles, on the values `parseInt` yields from a digit
string (a nonnegative integral double, or +Infinity): the exact successor
rounded back.  IEEE addition is correctly rounded, so this is exact on
that domain — the only one `arrayDefineOwnProperty` feeds it. -/
def doubleAddOne : JSNum → JSNum
  | JSNum.fin q => roundNatToDouble (q.num.toNat + 1)
  | x => x

/-- JavaScript `a >= b` on two numbers. -/
def jsGeNum (a b : JSNum) : Bool :=
  match a, b with
  | JSNum.nan, _ => false
  | _, JSNum.nan => false
  | JSNum.posInf, _ => true
  | JSNum.negInf, JSNum.negInf => true
  | JSNum.negInf, _ => false
  | _, JSNum.posInf => false
  | _, JSNum.negInf => true
  | JSNum.negZero, JSNum.negZero => true
  | JSNum.negZero, JSNum.fin q => decide ((0 : ℚ) ≥ q)
  | JSNum.fin q, JSNum.negZero => decide (q ≥ 0)
  | JSNum.fin q, JSNum.fin r => decide (q ≥ r)

/-- `parsedP >= this.get('length').value` for the value variants a length
slot can realistically hold: Numbers compare numerically; `true`/`false`
and `null` coerce to 1/0/0; a missing `value` field (Undefined, Unknown,
Object, Reference) compares as NaN, i.e. `false`.  String-to-number
coercion is not modelled; no theorem touches that case. -/
def jsGeVal (x : JSNum) (v : Value) : Bool :=
  match v with
  | Value.numV m _ => jsGeNum x m
  | Value.boolV b _ => jsGeNum x (JSNum.fin (if b then 1 else 0))
  | Value.nullV _ => jsGeNum x (JSNum.fin 0)
  | _ => false

/-- Result of the ArrayType `defineOwnProperty` override.  The source
discards the base call's boolean (and itself returns `undefined`); the model
carries the base result so theorems can speak about it. -/
inductive ADOPResult where
  | ret (baseResult : Bool) (o : ObjState) (evs : List REvent)
  | thrownNative (excType : String) (o : ObjState) (evs : List REvent)
  | getterOnLength (g : Value) (o : ObjState) (evs : List REvent)
deriving Repr

/-- `ArrayType.prototype.defineOwnProperty`
(src/lib/base/types/array.js 69-88): run the base operation, then — whatever
it returned — if the name is all digits and parses to at least the current
`length`, store `length = parsed + 1`. -/
def arrayDefineOwnProperty (s : CtxState) (o : ObjState) (p : String) (desc : PropDesc)
    (throwFlag suppressEvent : Bool) : ADOPResult :=
  match defineOwnProperty s o p desc throwFlag suppressEvent with
  | DOPResult.thrownNative t o1 evs => ADOPResult.thrownNative t o1 evs
  | DOPResult.ret b o1 evs =>
      if positiveIntegerTest p then
        match objGet s o1 "length" with
        | GetResult.getterCall g evs2 => ADOPResult.getterOnLength g o1 (evs ++ evs2)
        | GetResult.value lv evs2 =>
            match parseIntDigits p with
            | none => ADOPResult.ret b o1 (evs ++ evs2)
            | some parsedP =>
                if jsGeVal parsedP lv then
                  ADOPResult.ret b
                    (addProperty s o1 "length"
                      { value := some (Value.numV (doubleAddOne parsedP) s.curEnv),
                        writable := some true, enumerable := some false,
                        configurable := some false })
                    (evs ++ evs2)
                else ADOPResult.ret b o1 (evs ++ evs2)
      else ADOPResult.ret b o1 evs

/-! ## Declarative environment records (docgen 8703-8919) -/

/-- Look up a binding of environment record `env`. -/
def lookupBinding (s : CtxState) (env : Nat) (n : String) : Option Binding :=
  ((s.envAt env).bindings.find? fun b => b.1 == n).map (·.2)

/-- Store a binding into environment record `env`. -/
def setBinding (s : CtxState) (env : Nat) (n : String) (b : Binding) : CtxState :=
  let e := s.envAt env
  s.setEnv env { e with bindings := assocSet e.bindings n b }

/-- The value actually stored by the write tail: Unknown when the assigned
value is Unknown, the binding's current value is not local, or the block is
ambiguous; otherwise the assigned value itself. -/
def smbNewVal (s : CtxState) (curV v : Value) : Value :=
  if typeOf v == "Unknown" || !s.isLocalVal (closureOf curV) || s.isAmbiguousBlock
  then mkUnknown s else v

/-- The write tail of `setMutableBinding` (docgen 8779-8791).  The source
re-reads `this.getBindingValue(n)` (with falsy `s`, i.e. the primary value)
in each of the four tests; all four reads return the same value, collapsed
here into `curV`.  The Unknown-promotion test is identical in both branches
and is factored out. -/
def smbWrite (s : CtxState) (env : Nat) (n : String) (v : Value) : CtxState :=
  match lookupBinding s env n with
  | none => s  -- unreachable: the caller has checked the binding exists
  | some b =>
      let curV := b.value
      let newVal := smbNewVal s curV v
      if s.isLocalSkippedMode || !s.isSkippedLocalVal (closureOf curV) then
        setBinding s env n
          { b with alternateValues := assocSet b.alternateValues s.getSkippedSection newVal }
      else
        setBinding s env n { b with value := newVal }

/-- Result of `setMutableBinding`: the updated state, a thrown native
exception, or the host `Error` thrown when the binding does not exist. -/
inductive SMBResult where
  | ret (s : CtxState)
  | thrownNative (excType : String) (s : CtxState)
  | hostError (msg : String)
deriving Repr

/-- `DeclarativeEnvironmentRecord.prototype.setMutableBinding`
(docgen 8763-8791).  Note the immutable-and-strict branch has no `return`:
after reporting (or doing nothing in skipped mode) and overwriting the value
with Unknown, control continues into the write logic. -/
def setMutableBinding (s : CtxState) (env : Nat) (n : String) (v : Value)
    (strict : Bool) : SMBResult :=
  match lookupBinding s env n with
  | none => SMBResult.hostError "binding does not exist"
  | some b =>
      if !b.isMutable then
        if strict then
          match handleRecoverableNativeException s with
          | HREAction.throwNative => SMBResult.thrownNative "TypeError" s
          | _ =>
              let s1 := setBinding s env n { b with value := mkUnknown s }
              SMBResult.ret (smbWrite s1 env n v)
        else SMBResult.ret s
      else SMBResult.ret (smbWrite s env n v)

/-! ## Skipped mode (docgen 9616-9699) -/

/-- The host exception sentinel: all that `processInSkippedMode` inspects is
the `isCodeProcessorException` flag. -/
structure Exc where
  isCodeProcessorException : Bool
deriving DecidableEq, Repr

/-- Push a fresh skipped-section id (`++skippedModeCounter`) onto the
current context's environment record's skipped-mode stack. -/
def pushSkippedSection (s : CtxState) : CtxState :=
  let c := s.skippedModeCounter + 1
  let e := s.envAt s.curEnv
  { s.setEnv s.curEnv { e with skippedModeStack := c :: e.skippedModeStack } with
    skippedModeCounter := c }

/-- Pop the current context's environment record's skipped-mode stack. -/
def popSkippedSection (s : CtxState) : CtxState :=
  let e := s.envAt s.curEnv
  s.setEnv s.curEnv { e with skippedModeStack := e.skippedModeStack.tail }

/-- An analyzer operation passed to `processInSkippedMode`: a state
transformer that may throw a host exception. -/
def SkipClosure : Type := CtxState → CtxState × Option Exc

/-- The `for` loop over the closure arguments: run them in order until one
throws. -/
def runClosures : List SkipClosure → CtxState → CtxState × Option Exc
  | [], s => (s, none)
  | f :: fs, s =>
      match f s with
      | (s1, some e) => (s1, some e)
      | (s1, none) => runClosures fs s1

/-- `processInSkippedMode` (docgen 9623-9650): short-circuit on blacklisted
files; push a fresh skipped-section id; run the closures; swallow a thrown
exception iff it carries `isCodeProcessorException` and the engine is not
unrolling recursion; pop the section id in a `finally` on every exit
path. -/
def processInSkippedMode (fs : List SkipClosure) (s : CtxState) : CtxState × Option Exc :=
  if s.blacklisted then (s, none)
  else
    let s1 := pushSkippedSection s
    match runClosures fs s1 with
    | (s2, none) => (popSkippedSection s2, none)
    | (s2, some e) =>
        if s2.inRecursionUnroll || !e.isCodeProcessorException then
          (popSkippedSection s2, some e)
        else (popSkippedSection s2, none)

/-! ## References and putValue (docgen 1929-2142) -/

/-- The base of a reference: a value, or an environment record. -/
inductive RefBase where
  | value (v : Value)
  | envRec (id : Nat)
deriving DecidableEq, Repr

/-- A `ReferenceType`: `(baseValue, referencedName, strictReference)`. -/
structure RefData where
  baseValue : RefBase
  referencedName : String
  strictReference : Bool
deriving DecidableEq, Repr

/-- `type(getBase(v))`: environment records carry no `type` field, so the
lookup yields `undefined` for them. -/
def typeOfBase : RefBase → Option String
  | RefBase.value v => some (typeOf v)
  | RefBase.envRec _ => none

def isUnresolvableReference (r : RefData) : Bool :=
  typeOfBase r.baseValue == some "Undefined"

def hasPrimitiveBase (r : RefData) : Bool :=
  typeOfBase r.baseValue == some "Number" || typeOfBase r.baseValue == some "String" ||
    typeOfBase r.baseValue == some "Boolean"

def isPropertyReference (r : RefData) : Bool :=
  hasPrimitiveBase r || typeOfBase r.baseValue == some "Object"

/-- The argument of `putValue`: a reference, or any other value (which makes
`putValue` throw). -/
inductive PutValueArg where
  | value (v : Value)
  | reference (r : RefData)

/-- Result of `putValue`.  The unresolvable-non-strict path is interpreted
in full against the global object; property and environment-record writes on
resolvable references are surfaced as delegation markers (they run on
objects other than the global). -/
inductive PutValueResult where
  | thrownNative (excType : String) (g : ObjState) (evs : List REvent)
  | done (g : ObjState) (evs : List REvent)
  | globalSetter (setter : Option Value) (g : ObjState) (evs : List REvent)
  | primitivePut (name : String) (strict : Bool) (g : ObjState)
  | delegatedPut (base : Value) (name : String) (strict : Bool) (g : ObjState)
  | delegatedSetBinding (envId : Nat) (name : String) (strict : Bool) (g : ObjState)
  | hostCrash (g : ObjState)
deriving Repr

/-- `putValue` (docgen 2087-2142; identical in src/unnamed/part_000
229-285).  `g` is the global object (`getGlobalObject()`). -/
def putValue (s : CtxState) (g : ObjState) (arg : PutValueArg) (w : Value) : PutValueResult :=
  match arg with
  | PutValueArg.value _ => PutValueResult.thrownNative "ReferenceError" g []
  | PutValueArg.reference r =>
      if isUnresolvableReference r then
        if r.strictReference then PutValueResult.thrownNative "ReferenceError" g []
        else
          match put s g r.referencedName w false false with
          | PutResult.ret g1 evs =>
              PutValueResult.done g1
                (evs ++ [REvent.undeclaredGlobalVariableCreated r.referencedName])
          | PutResult.setterCall st g1 evs =>
              PutValueResult.globalSetter st g1
                (evs ++ [REvent.undeclaredGlobalVariableCreated r.referencedName])
          | PutResult.thrownNative t g1 evs => PutValueResult.thrownNative t g1 evs
      else if isPropertyReference r then
        if hasPrimitiveBase r then
          PutValueResult.primitivePut r.referencedName r.strictReference g
        else
          match r.baseValue with
          | RefBase.value bv => PutValueResult.delegatedPut bv r.referencedName r.strictReference g
          | RefBase.envRec _ => PutValueResult.hostCrash g
      else
        match r.baseValue with
        | RefBase.envRec e => PutValueResult.delegatedSetBinding e r.referencedName r.strictReference g
        | RefBase.value _ => PutValueResult.hostCrash g
          -- Unknown/Reference/Null bases reach `base.setMutableBinding`,
          -- which is not a function on those hosts

/-! ## Observation helpers and concrete states used by the theorems -/

/-- Whether `defineOwnProperty` returned `true`. -/
def dopSuccess : DOPResult → Bool
  | DOPResult.ret b _ _ => b
  | DOPResult.thrownNative _ _ _ => false

/-- Whether `defineOwnProperty` threw. -/
def dopThrown : DOPResult → Bool
  | DOPResult.ret _ _ _ => false
  | DOPResult.thrownNative _ _ _ => true

/-- The object state after `defineOwnProperty`. -/
def dopObj : DOPResult → ObjState
  | DOPResult.ret _ o _ => o
  | DOPResult.thrownNative _ o _ => o

/-- The events fired by a `delete`. -/
def delEvents : DelResult → List REvent
  | DelResult.ret _ _ evs => evs
  | DelResult.thrownNative _ _ evs => evs

/-- The object state after the ArrayType `defineOwnProperty` override. -/
def adopObj : ADOPResult → ObjState
  | ADOPResult.ret _ o _ => o
  | ADOPResult.thrownNative _ o _ => o
  | ADOPResult.getterOnLength _ o _ => o

/-- Whether the ArrayType override ended in a thrown exception (or an
uninterpreted getter call on `length`). -/
def adopAbrupt : ADOPResult → Bool
  | ADOPResult.ret _ _ _ => false
  | ADOPResult.thrownNative _ _ _ => true
  | ADOPResult.getterOnLength _ _ _ => true

/-- The primary (non-alternate) descriptor value stored under `p`. -/
def primaryValue (o : ObjState) (p : String) : Option Value :=
  (lookupEntry o p).bind fun e =>
    match e.value with
    | PSlot.pdesc d => d.value
    | PSlot.rawValue _ => none

/-- The rational value of the primary `length` property, when it holds a
finite Number. -/
def lengthNum (o : ObjState) : Option ℚ :=
  match primaryValue o "length" with
  | some (Value.numV (JSNum.fin q) _) => some q
  | _ => none

/-- The primary value of binding `n` after a `setMutableBinding` that
returned normally. -/
def smbValueAfter (r : SMBResult) (env : Nat) (n : String) : Option Value :=
  match r with
  | SMBResult.ret s => (lookupBinding s env n).map (·.value)
  | _ => none

/-- The alternate-value map of binding `n` after a `setMutableBinding` that
returned normally. -/
def smbAltAfter (r : SMBResult) (env : Nat) (n : String) : Option (List (Option Nat × Value)) :=
  match r with
  | SMBResult.ret s => (lookupBinding s env n).map (·.alternateValues)
  | _ => none

/-- The events fired by `putValue` (empty for the delegation markers, whose
events fire inside the delegated call). -/
def pvrEvents : PutValueResult → List REvent
  | PutValueResult.thrownNative _ _ evs => evs
  | PutValueResult.done _ evs => evs
  | PutValueResult.globalSetter _ _ evs => evs
  | _ => []

/-- The global object after `putValue`. -/
def pvrGlobal : PutValueResult → ObjState
  | PutValueResult.thrownNative _ g _ => g
  | PutValueResult.done g _ => g
  | PutValueResult.globalSetter _ g _ => g
  | PutValueResult.primitivePut _ _ g => g
  | PutValueResult.delegatedPut _ _ _ g => g
  | PutValueResult.delegatedSetBinding _ _ _ g => g
  | PutValueResult.hostCrash g => g

/-- Whether `putValue` threw a native exception of the given type. -/
def pvrThrew (r : PutValueResult) (t : String) : Bool :=
  match r with
  | PutValueResult.thrownNative u _ _ => u == t
  | _ => false

/-- The skipped-mode stack of the current context's environment record. -/
def skStackOf (s : CtxState) : List Nat :=
  (s.envAt s.curEnv).skippedModeStack

/-- A one-context, one-environment state in normal mode. -/
def ctx1 : CtxState :=
  { envs := [{}], stack := [⟨0, 0⟩] }

/-- `ctx1` with recovery enabled and a positive try-catch counter. -/
def ctxC4 : CtxState :=
  { envs := [{}], stack := [⟨0, 0⟩], nativeExceptionRecovery := true, tryCatch := 1 }

/-- A non-extensible, empty, Object-tagged object closed over environment
0. -/
def oC1 : ObjState :=
  ObjState.mk "Object" false 0 [] none

/-- A data descriptor whose value is an Unknown. -/
def descC1 : PropDesc :=
  { value := some (Value.unknownV 7 0) }

/-- Two environments: environment 0 (outer, with an active skipped section)
and environment 1 (current, with a mutable binding `x` holding `3` created
in environment 1). -/
def ctxC2 : CtxState :=
  { envs :=
      [{ skippedModeStack := [1] },
       { bindings := [("x", { value := Value.numV (JSNum.fin 3) 1 })], outer := some 0 }],
    stack := [⟨1, 0⟩, ⟨0, 0⟩],
    skippedModeCounter := 1 }

/-- A global object with an own non-writable property `x` holding `0`. -/
def gC5 : ObjState :=
  ObjState.mk "Object" true 0
    [⟨"x", PSlot.pdesc
        { value := some (Value.numV (JSNum.fin 0) 0), writable := some false,
          enumerable := some false, configurable := some false }, []⟩]
    none

/-- An unresolvable, non-strict reference named `x`. -/
def refC5 : RefData :=
  ⟨RefBase.value (Value.undefV 0), "x", false⟩

/-- A frozen (non-extensible) array-shaped object: `length` holds Number 0,
no elements. -/
def aC6 : ObjState :=
  ObjState.mk "Object" false 0
    [⟨"length", PSlot.pdesc
        { value := some (Value.numV (JSNum.fin 0) 0), writable := some true,
          enumerable := some false, configurable := some false }, []⟩]
    none

/-- An extensible array-shaped object with `length` holding Number 0. -/
def aBig : ObjState :=
  ObjState.mk "Object" true 0
    [⟨"length", PSlot.pdesc
        { value := some (Value.numV (JSNum.fin 0) 0), writable := some true,
          enumerable := some false, configurable := some false }, []⟩]
    none

/-- The descriptor `{value: 5, writable: true, enumerable: true,
configurable: true}`. -/
def descC6 : PropDesc :=
  { value := some (Value.numV (JSNum.fin 5) 0), writable := some true,
    enumerable := some true, configurable := some true }

/-- `ctx1` with native-exception recovery enabled. -/
def ctxC6 : CtxState :=
  { envs := [{}], stack := [⟨0, 0⟩], nativeExceptionRecovery := true }

/-- A closure that immediately throws the engine's code-processor
sentinel. -/
def throwingClosure : SkipClosure :=
  fun t => (t, some ⟨true⟩)

/-- The update function `addProperty` maps over the entries. -/
def addPropertyUpd (s : CtxState) (o : ObjState) (d : PropDesc) (e : PEntry) : PEntry :=
  if s.isLocalSkippedMode || !s.isSkippedLocalVal o.closure then
    { e with alternateValues :=
        assocSet e.alternateValues s.getSkippedSection (PSlot.pdesc d) }
  else { e with value := PSlot.pdesc d }

/-- The descriptor `{value: v, writable: true, enumerable: true,
configurable: true}`. -/
def fullDataDesc (v : Value) : PropDesc :=
  { value := some v, writable := some true, enumerable := some true, configurable := some true }

/-- An empty, extensible global object closed over environment 0. -/
def gEmpty : ObjState :=
  ObjState.mk "Object" true 0 [] none

/-! ## C7: `sameValue` at signed zeros and NaN -/

/-- C7 counterexample: the claim states `sameValue(+0, -0) = false` and
`sameValue(NaN, NaN) = true`; the implementation compares Number values with
JavaScript `===`, giving exactly the opposite results. -/
theorem sameValue_signedZero_nan_counterexample :
    sameValue (some (Value.numV (JSNum.fin 0) 0)) (some (Value.numV JSNum.negZero 0)) = true ∧
    sameValue (some (Value.numV JSNum.nan 0)) (some (Value.numV JSNum.nan 0)) = false := by
  decide

/-- C7 (amended): `sameValue` compares Number values with JavaScript strict
equality on their `value` fields, so it coincides with `===` at signed zeros
(`sameValue(+0,-0) = true`) and NaN (`sameValue(NaN,NaN) = false`), and
differs there from the §9.12 SameValue algorithm, which the spec-side
`sameValueSpec912` follows. -/
theorem sameValue_numbers_use_strict_equality (m n : JSNum) (c₁ c₂ : Nat) :
    sameValue (some (Value.numV m c₁)) (some (Value.numV n c₂)) = jsEq m n ∧
    sameValueSpec912 (some (Value.numV m c₁)) (some (Value.numV n c₂)) = sameValue912 m n ∧
    sameValue912 (JSNum.fin 0) JSNum.negZero = false ∧
    sameValue912 JSNum.nan JSNum.nan = true := by
  refine ⟨rfl, rfl, by decide, by decide⟩

/-! ## C8: `strictEquals` on a value and itself -/

/-- C8 counterexample: for an Unknown value `u`, `type(u) ≠ 'Number'` yet
`strictEquals(u, u)` is not `true` — the `switch` has no Unknown case and
the function returns `undefined`. -/
theorem strictEquals_unknown_counterexample :
    typeOf (Value.unknownV 0 0) ≠ "Number" ∧
    strictEquals (Value.unknownV 0 0) (Value.unknownV 0 0) ≠ some true := by
  decide

/-- C8 (amended): for values of the six handled variants (Undefined, Null,
Boolean, Number, String, Object), `strictEquals(x, x)` is `true` iff
`type(x) ≠ 'Number'` or `x.value` is not NaN; for Unknown and Reference
values it returns `undefined` (not `true`). -/
theorem strictEquals_self (x : Value) :
    (typeOf x ≠ "Unknown" → typeOf x ≠ "Reference" →
      (strictEquals x x = some true ↔ (typeOf x ≠ "Number" ∨ valueIsNaN x = false))) ∧
    ((typeOf x = "Unknown" ∨ typeOf x = "Reference") → strictEquals x x = none) := by
  cases x <;>
    first
      | (rename_i n _; cases n <;> simp [strictEquals, typeOf, valueIsNaN, jsEq, jsIsNaN])
      | simp [strictEquals, typeOf, valueIsNaN]

/-- C8 witness: the amended biconditional applied at `NaN`. -/
theorem strictEquals_self_witness :
    strictEquals (Value.numV JSNum.nan 0) (Value.numV JSNum.nan 0) = some true ↔
      (typeOf (Value.numV JSNum.nan 0) ≠ "Number" ∨
        valueIsNaN (Value.numV JSNum.nan 0) = false) :=
  (strictEquals_self (Value.numV JSNum.nan 0)).1 (by decide) (by decide)

/-! ## C4: `handleRecoverableNativeException` and the try-catch counter -/

/-- C4 counterexample: with the try-catch counter positive, recovery
enabled, exact mode off and skipped mode inactive,
`handleRecoverableNativeException` reports instead of throwing — it never
consults `inTryCatch()`. -/
theorem hre_inTryCatch_counterexample :
    CtxState.inTryCatch ctxC4 = true ∧ ctxC4.nativeExceptionRecovery = true ∧
    ctxC4.exactMode = false ∧ CtxState.isSkippedMode ctxC4 = false ∧
    handleRecoverableNativeException ctxC4 = HREAction.report := by
  decide

/-- C4 (amended): `handleRecoverableNativeException` is independent of the
try-catch counter; outside skipped mode, with `nativeExceptionRecovery`
enabled and `exactMode` disabled, it reports an `errorReported` diagnostic
(and substitutes Unknown at its call sites) even when `inTryCatch()` is
true.  Only `eval`'s parse-error path consults `inTryCatch()`. -/
theorem hre_ignores_tryCatch (s : CtxState) (t : Int) :
    handleRecoverableNativeException { s with tryCatch := t } =
      handleRecoverableNativeException s ∧
    (s.isSkippedMode = false → s.nativeExceptionRecovery = true → s.exactMode = false →
      handleRecoverableNativeException s = HREAction.report) := by
  constructor
  · rfl
  · intro h1 h2 h3
    simp [handleRecoverableNativeException, h1, h2, h3]

/-- C4 witness: the amended statement applied at a concrete state. -/
theorem hre_ignores_tryCatch_witness :
    handleRecoverableNativeException { ctx1 with tryCatch := (5 : Int) } =
      handleRecoverableNativeException ctx1 ∧
    handleRecoverableNativeException ctxC4 = HREAction.report :=
  ⟨(hre_ignores_tryCatch ctx1 5).1,
   (hre_ignores_tryCatch ctxC4 0).2 (by decide) (by decide) (by decide)⟩

/-! ## C10: `delete` fires `propertyDeleted` unconditionally -/

/-- C10: `delete` fires the `propertyDeleted` event on every path — when the
property is absent (returning `true` without removing anything) and when it
is non-configurable (failing, by returning `false` or throwing) — so
observing the event does not imply a removal happened. -/
theorem delete_fires_event_unconditionally (s : CtxState) (o : ObjState) (p : String)
    (tf : Bool) :
    delEvents (objDelete s o p tf) = [REvent.propertyDeleted p] ∧
    (getOwnProperty s o p = none →
      objDelete s o p tf = DelResult.ret true o [REvent.propertyDeleted p]) ∧
    (∀ d, getOwnProperty s o p = some d → truthy d.configurable = false →
      objDelete s o p tf =
        if tf then DelResult.thrownNative "TypeError" o [REvent.propertyDeleted p]
        else DelResult.ret false o [REvent.propertyDeleted p]) := by
  unfold objDelete
  cases h : getOwnProperty s o p with
  | none => simp [delEvents]
  | some d =>
      refine ⟨?_, by simp, ?_⟩
      · by_cases hc : truthy d.configurable = true <;> cases tf <;>
          simp [hc, delEvents]
      · intro d2 hd2 hc2
        obtain rfl : d = d2 := by simpa using hd2
        cases tf <;> simp [hc2]

/-- C10 witness: deleting an absent property from a concrete object returns
`true`, changes nothing, and still fires the event. -/
theorem delete_fires_event_witness :
    objDelete ctx1 oC1 "q" false = DelResult.ret true oC1 [REvent.propertyDeleted "q"] :=
  (delete_fires_event_unconditionally ctx1 oC1 "q" false).2.1 (by decide)

/-! ## C9: idempotence of `toInt32` -/

theorem truncToward0_mul_bounds (k : ℤ) :
    (0 ≤ k → 2 ^ 32 * truncToward0 ((k : ℚ) / 2 ^ 32) ≤ k ∧
      k < 2 ^ 32 * truncToward0 ((k : ℚ) / 2 ^ 32) + 2 ^ 32) ∧
    (k < 0 → k ≤ 2 ^ 32 * truncToward0 ((k : ℚ) / 2 ^ 32) ∧
      2 ^ 32 * truncToward0 ((k : ℚ) / 2 ^ 32) - 2 ^ 32 < k) := by
  have hm : (0 : ℚ) < 2 ^ 32 := by norm_num
  constructor
  · intro hk
    have hq : (0 : ℚ) ≤ (k : ℚ) / 2 ^ 32 := by positivity
    rw [truncToward0, if_pos hq]
    constructor
    · have h1 : (⌊(k : ℚ) / 2 ^ 32⌋ : ℚ) ≤ (k : ℚ) / 2 ^ 32 := Int.floor_le _
      have h2 : (⌊(k : ℚ) / 2 ^ 32⌋ : ℚ) * 2 ^ 32 ≤ (k : ℚ) := (le_div_iff₀ hm).mp h1
      have : ((2 : ℚ) ^ 32) * (⌊(k : ℚ) / 2 ^ 32⌋ : ℚ) ≤ (k : ℚ) := by linarith
      exact_mod_cast this
    · have h1 : (k : ℚ) / 2 ^ 32 < ⌊(k : ℚ) / 2 ^ 32⌋ + 1 := Int.lt_floor_add_one _
      have h2 : (k : ℚ) < ((⌊(k : ℚ) / 2 ^ 32⌋ : ℚ) + 1) * 2 ^ 32 := (div_lt_iff₀ hm).mp h1
      have : (k : ℚ) < 2 ^ 32 * (⌊(k : ℚ) / 2 ^ 32⌋ : ℚ) + 2 ^ 32 := by linarith
      exact_mod_cast this
  · intro hk
    have hq : ¬ (0 : ℚ) ≤ (k : ℚ) / 2 ^ 32 := by
      have : (k : ℚ) < 0 := by exact_mod_cast hk
      simp only [not_le]
      exact div_neg_of_neg_of_pos this hm
    rw [truncToward0, if_neg hq]
    constructor
    · have h1 : (k : ℚ) / 2 ^ 32 ≤ (⌈(k : ℚ) / 2 ^ 32⌉ : ℚ) := Int.le_ceil _
      have h2 : (k : ℚ) ≤ (⌈(k : ℚ) / 2 ^ 32⌉ : ℚ) * 2 ^ 32 := (div_le_iff₀ hm).mp h1
      have : (k : ℚ) ≤ 2 ^ 32 * (⌈(k : ℚ) / 2 ^ 32⌉ : ℚ) := by linarith
      exact_mod_cast this
    · have h1 : (⌈(k : ℚ) / 2 ^ 32⌉ : ℚ) < (k : ℚ) / 2 ^ 32 + 1 := Int.ceil_lt_add_one _
      have h2 : ((⌈(k : ℚ) / 2 ^ 32⌉ : ℚ) - 1) * 2 ^ 32 < (k : ℚ) := by
        rw [sub_mul, one_mul, sub_lt_iff_lt_add]
        calc (⌈(k : ℚ) / 2 ^ 32⌉ : ℚ) * 2 ^ 32 < ((k : ℚ) / 2 ^ 32 + 1) * 2 ^ 32 := by
              apply mul_lt_mul_of_pos_right h1 hm
          _ = (k : ℚ) + 2 ^ 32 := by field_simp
      have : 2 ^ 32 * (⌈(k : ℚ) / 2 ^ 32⌉ : ℚ) - 2 ^ 32 < (k : ℚ) := by linarith
      exact_mod_cast this

theorem jsRem_int (k : ℤ) :
    ∃ r : ℤ, jsRem (JSNum.fin (k : ℚ)) (2 ^ 32) =
        (if r = 0 ∧ k < 0 then JSNum.negZero else JSNum.fin (r : ℚ)) ∧
      -(2 ^ 32) < r ∧ r < 2 ^ 32 ∧ (0 ≤ k → 0 ≤ r) ∧ (k < 0 → r ≤ 0) := by
  refine ⟨k - 2 ^ 32 * truncToward0 ((k : ℚ) / 2 ^ 32), ?_, ?_, ?_, ?_, ?_⟩
  · simp only [jsRem]
    have hval : (k : ℚ) - 2 ^ 32 * (truncToward0 ((k : ℚ) / 2 ^ 32) : ℚ) =
        ((k - 2 ^ 32 * truncToward0 ((k : ℚ) / 2 ^ 32) : ℤ) : ℚ) := by push_cast; ring
    have hcond : ((k : ℚ) - 2 ^ 32 * (truncToward0 ((k : ℚ) / 2 ^ 32) : ℚ) = 0 ∧ (k : ℚ) < 0) ↔
        (k - 2 ^ 32 * truncToward0 ((k : ℚ) / 2 ^ 32) = 0 ∧ k < 0) := by
      rw [hval]
      constructor
      · rintro ⟨h1, h2⟩; exact ⟨by exact_mod_cast h1, by exact_mod_cast h2⟩
      · rintro ⟨h1, h2⟩; exact ⟨by exact_mod_cast h1, by exact_mod_cast h2⟩
    by_cases h : k - 2 ^ 32 * truncToward0 ((k : ℚ) / 2 ^ 32) = 0 ∧ k < 0
    · rw [if_pos (hcond.mpr h), if_pos h]
    · rw [if_neg (fun hc => h (hcond.mp hc)), if_neg h, hval]
  · rcases le_or_lt 0 k with hk | hk
    · have := (truncToward0_mul_bounds k).1 hk
      omega
    · have := (truncToward0_mul_bounds k).2 hk
      omega
  · rcases le_or_lt 0 k with hk | hk
    · have := (truncToward0_mul_bounds k).1 hk
      omega
    · have := (truncToward0_mul_bounds k).2 hk
      omega
  · intro hk
    have := (truncToward0_mul_bounds k).1 hk
    omega
  · intro hk
    have := (truncToward0_mul_bounds k).2 hk
    omega

theorem truncToward0_small_zero (r : ℤ) (h₁ : -(2 ^ 32) < r) (h₂ : r < 2 ^ 32) :
    truncToward0 ((r : ℚ) / 2 ^ 32) = 0 := by
  have hm : (0 : ℚ) < 2 ^ 32 := by norm_num
  rcases le_or_lt 0 r with hr | hr
  · have hq : (0 : ℚ) ≤ (r : ℚ) / 2 ^ 32 := by positivity
    rw [truncToward0, if_pos hq, Int.floor_eq_zero_iff]
    refine Set.mem_Ico.mpr ⟨hq, ?_⟩
    rw [div_lt_one hm]
    exact_mod_cast h₂
  · have hrq : (r : ℚ) < 0 := by exact_mod_cast hr
    have hq : ¬ (0 : ℚ) ≤ (r : ℚ) / 2 ^ 32 := by
      simp only [not_le]
      exact div_neg_of_neg_of_pos hrq hm
    rw [truncToward0, if_neg hq, Int.ceil_eq_zero_iff]
    refine Set.mem_Ioc.mpr ⟨?_, le_of_lt (div_neg_of_neg_of_pos hrq hm)⟩
    rw [lt_div_iff₀ hm]
    have : (-(2 ^ 32) : ℚ) < (r : ℚ) := by exact_mod_cast h₁
    linarith

theorem jsRem_small_fix (r : ℤ) (h₀ : r ≠ 0 ∨ 0 ≤ r) (h₁ : -(2 ^ 32) < r) (h₂ : r < 2 ^ 32) :
    jsRem (JSNum.fin (r : ℚ)) (2 ^ 32) = JSNum.fin (r : ℚ) := by
  have hT := truncToward0_small_zero r h₁ h₂
  simp only [jsRem, hT, Int.cast_zero, mul_zero, sub_zero]
  rw [if_neg]
  rintro ⟨hz, hneg⟩
  rcases h₀ with h | h
  · exact h (by exact_mod_cast hz)
  · exact absurd hneg (not_lt.mpr (by exact_mod_cast h))

theorem toInt32Num_int_fix (r : ℤ) (h₁ : -(2 ^ 32) < r) (h₂ : r < 2 ^ 31) :
    toInt32Num (JSNum.fin (r : ℚ)) = JSNum.fin (r : ℚ) := by
  have hguard : ¬ ((jsIsNaN (JSNum.fin (r : ℚ)) || (JSNum.fin (r : ℚ) == JSNum.posInf) ||
      (JSNum.fin (r : ℚ) == JSNum.negInf)) = true) := by
    simp [jsIsNaN]
  rw [toInt32Num, if_neg hguard]
  have hru : r < 2 ^ 32 := by omega
  rcases le_or_lt 0 r with hr | hr
  · have hrq : (0 : ℚ) ≤ (r : ℚ) := by exact_mod_cast hr
    have e1 : jsLtZero (JSNum.fin (r : ℚ)) = false := by
      simp only [jsLtZero, decide_eq_false_iff_not, not_lt]
      exact hrq
    have e2 : jsAbs (JSNum.fin (r : ℚ)) = JSNum.fin (r : ℚ) := by
      simp [jsAbs, abs_of_nonneg hrq]
    have e3 : jsFloor (JSNum.fin (r : ℚ)) = JSNum.fin (r : ℚ) := by
      simp [jsFloor, Int.floor_intCast]
    have e4 : jsMulSign false (JSNum.fin (r : ℚ)) = JSNum.fin (r : ℚ) := by
      simp [jsMulSign]
    have e5 := jsRem_small_fix r (Or.inr hr) h₁ hru
    have e6 : jsGeConst (JSNum.fin (r : ℚ)) (2 ^ 31) = false := by
      simp only [jsGeConst, decide_eq_false_iff_not, not_le]
      exact_mod_cast h₂
    simp only [e1, e2, e3, e4, e5, e6, Bool.false_eq_true, if_false]
  · have hrq : (r : ℚ) < 0 := by exact_mod_cast hr
    have e1 : jsLtZero (JSNum.fin (r : ℚ)) = true := by
      simp only [jsLtZero, decide_eq_true_eq]
      exact hrq
    have e2 : jsAbs (JSNum.fin (r : ℚ)) = JSNum.fin (-(r : ℚ)) := by
      simp [jsAbs, abs_of_neg hrq]
    have e3 : jsFloor (JSNum.fin (-(r : ℚ))) = JSNum.fin (-(r : ℚ)) := by
      have h : ((-r : ℤ) : ℚ) = -(r : ℚ) := by push_cast; ring
      simp only [jsFloor]
      rw [← h, Int.floor_intCast]
    have e4 : jsMulSign true (JSNum.fin (-(r : ℚ))) = JSNum.fin (r : ℚ) := by
      rw [jsMulSign, if_pos rfl, if_neg, neg_neg]
      intro h
      exact absurd hrq (not_lt.mpr (le_of_eq (by linarith)))
    have e5 := jsRem_small_fix r (Or.inl (by omega)) h₁ hru
    have e6 : jsGeConst (JSNum.fin (r : ℚ)) (2 ^ 31) = false := by
      simp only [jsGeConst, decide_eq_false_iff_not, not_le]
      calc (r : ℚ) < 0 := hrq
        _ < 2 ^ 31 := by norm_num
    simp only [e1, e2, e3, e4, e5, e6, Bool.false_eq_true, if_false]

theorem toInt32Num_negZero : toInt32Num JSNum.negZero = JSNum.fin 0 := by
  rw [toInt32Num, if_neg (by decide :
    ¬ ((jsIsNaN JSNum.negZero || (JSNum.negZero == JSNum.posInf) ||
        (JSNum.negZero == JSNum.negInf)) = true))]
  have e1 : jsMulSign (jsLtZero JSNum.negZero) (jsFloor (jsAbs JSNum.negZero)) =
      JSNum.fin 0 := by
    show jsMulSign false (jsFloor (JSNum.fin 0)) = JSNum.fin 0
    simp [jsFloor, jsMulSign, Int.floor_zero]
  have e2 : jsRem (JSNum.fin 0) (2 ^ 32) = JSNum.fin 0 := by
    have hT : truncToward0 ((0 : ℚ) / 2 ^ 32) = 0 := by
      rw [zero_div, truncToward0, if_pos le_rfl, Int.floor_zero]
    simp only [jsRem, hT, Int.cast_zero, mul_zero, sub_zero]
    rw [if_neg (by norm_num)]
  have e3 : jsGeConst (JSNum.fin 0) (2 ^ 31) = false := by
    simp only [jsGeConst, decide_eq_false_iff_not, not_le]
    norm_num
  simp only [e1, e2, e3, Bool.false_eq_true, if_false]

theorem toInt32Num_shape (x : JSNum) :
    toInt32Num x = JSNum.negZero ∨
    ∃ r : ℤ, toInt32Num x = JSNum.fin (r : ℚ) ∧ -(2 ^ 32) < r ∧ r < 2 ^ 31 := by
  cases x with
  | nan =>
      exact Or.inr ⟨0, by rw [show toInt32Num JSNum.nan = JSNum.fin 0 from by decide]; simp,
        by norm_num, by norm_num⟩
  | posInf =>
      exact Or.inr ⟨0, by rw [show toInt32Num JSNum.posInf = JSNum.fin 0 from by decide]; simp,
        by norm_num, by norm_num⟩
  | negInf =>
      exact Or.inr ⟨0, by rw [show toInt32Num JSNum.negInf = JSNum.fin 0 from by decide]; simp,
        by norm_num, by norm_num⟩
  | negZero =>
      exact Or.inr ⟨0, by rw [toInt32Num_negZero]; simp, by norm_num, by norm_num⟩
  | fin q =>
      have hguard : ¬ ((jsIsNaN (JSNum.fin q) || (JSNum.fin q == JSNum.posInf) ||
          (JSNum.fin q == JSNum.negInf)) = true) := by
        simp [jsIsNaN]
      rw [toInt32Num, if_neg hguard]
      rcases le_or_lt 0 q with hq | hq
      · -- sign = 1; the operand of `%` is ⌊q⌋ ≥ 0
        have e1 : jsLtZero (JSNum.fin q) = false := by
          simp only [jsLtZero, decide_eq_false_iff_not, not_lt]; exact hq
        have e2 : jsAbs (JSNum.fin q) = JSNum.fin q := by simp [jsAbs, abs_of_nonneg hq]
        have e3 : jsFloor (JSNum.fin q) = JSNum.fin ((⌊q⌋ : ℤ) : ℚ) := by simp [jsFloor]
        have e4 : jsMulSign false (JSNum.fin ((⌊q⌋ : ℤ) : ℚ)) = JSNum.fin ((⌊q⌋ : ℤ) : ℚ) := by
          simp [jsMulSign]
        have hk : 0 ≤ ⌊q⌋ := Int.floor_nonneg.mpr hq
        obtain ⟨r, hrem, hrl, hru, hpos, _⟩ := jsRem_int ⌊q⌋
        have hr0 : 0 ≤ r := hpos hk
        rw [if_neg (by omega : ¬ (r = 0 ∧ ⌊q⌋ < 0))] at hrem
        simp only [e1, e2, e3, e4, hrem]
        by_cases hge : jsGeConst (JSNum.fin (r : ℚ)) (2 ^ 31) = true
        · have hr31 : (2 : ℤ) ^ 31 ≤ r := by
            have := of_decide_eq_true (by simpa [jsGeConst] using hge)
            exact_mod_cast this
          rw [if_pos hge]
          refine Or.inr ⟨r - 2 ^ 32, ?_, by omega, by omega⟩
          show jsSubConst _ _ = _
          rw [jsSubConst]
          congr 1
          push_cast
          try ring
        · rw [if_neg hge]
          have hr31 : r < 2 ^ 31 := by
            by_contra hcon
            exact hge (by
              simp only [jsGeConst, decide_eq_true_eq]
              exact_mod_cast not_lt.mp hcon)
          exact Or.inr ⟨r, rfl, by omega, hr31⟩
      · -- sign = -1; the operand of `%` is -⌊|q|⌋ ≤ 0
        have e1 : jsLtZero (JSNum.fin q) = true := by
          simp only [jsLtZero, decide_eq_true_eq]; exact hq
        have e2 : jsAbs (JSNum.fin q) = JSNum.fin (-q) := by simp [jsAbs, abs_of_neg hq]
        have e3 : jsFloor (JSNum.fin (-q)) = JSNum.fin ((⌊-q⌋ : ℤ) : ℚ) := by simp [jsFloor]
        have hk : 0 ≤ ⌊-q⌋ := Int.floor_nonneg.mpr (by linarith)
        by_cases hz : ((⌊-q⌋ : ℤ) : ℚ) = 0
        · have e4 : jsMulSign true (JSNum.fin ((⌊-q⌋ : ℤ) : ℚ)) = JSNum.negZero := by
            rw [jsMulSign, if_pos rfl, if_pos hz]
          simp only [e1, e2, e3, e4]
          left
          simp only [show jsRem JSNum.negZero (2 ^ 32) = JSNum.negZero from rfl,
            show jsGeConst JSNum.negZero (2 ^ 31) = false from by decide,
            Bool.false_eq_true, if_false]
        · have hkpos : 0 < ⌊-q⌋ := by
            rcases lt_or_eq_of_le hk with h | h
            · exact h
            · exact absurd (by exact_mod_cast h.symm : ((⌊-q⌋ : ℤ) : ℚ) = 0) hz
          have e4 : jsMulSign true (JSNum.fin ((⌊-q⌋ : ℤ) : ℚ)) =
              JSNum.fin ((-⌊-q⌋ : ℤ) : ℚ) := by
            rw [jsMulSign, if_pos rfl, if_neg hz]
            norm_cast
          obtain ⟨r, hrem, hrl, hru, _, hneg⟩ := jsRem_int (-⌊-q⌋)
          have hr0 : r ≤ 0 := hneg (by omega)
          simp only [e1, e2, e3, e4, hrem]
          by_cases hrz : r = 0
          · rw [if_pos (by omega : r = 0 ∧ -⌊-q⌋ < 0)]
            left
            simp only [show jsGeConst JSNum.negZero (2 ^ 31) = false from by decide,
              Bool.false_eq_true, if_false]
          · rw [if_neg (by omega : ¬ (r = 0 ∧ -⌊-q⌋ < 0))]
            have hge : jsGeConst (JSNum.fin (r : ℚ)) (2 ^ 31) = false := by
              simp only [jsGeConst, decide_eq_false_iff_not, not_le]
              have : (r : ℚ) ≤ 0 := by exact_mod_cast hr0
              calc (r : ℚ) ≤ 0 := this
                _ < 2 ^ 31 := by norm_num
            rw [hge]
            simp only [Bool.false_eq_true, if_false]
            exact Or.inr ⟨r, rfl, by omega, by omega⟩

/-- C9: `toInt32` is idempotent on finite Number inputs, "same value"
meaning JavaScript numeric equality (under which `-0 == +0`; the
intermediate result of e.g. `toInt32(-0.5)` is the negative zero and the
second pass yields `+0`). -/
theorem toInt32_idempotent (n : JSNum) (_hfin : isFiniteNum n = true) :
    jsEq (toInt32Num (toInt32Num n)) (toInt32Num n) = true := by
  rcases toInt32Num_shape n with h | ⟨r, h, hl, hu⟩
  · rw [h, toInt32Num_negZero]
    simp [jsEq]
  · rw [h, toInt32Num_int_fix r hl hu]
    simp [jsEq]

/-- C9 witness: idempotence at `-1/2`, whose first `toInt32` image is the
negative zero. -/
theorem toInt32_idempotent_witness :
    isFiniteNum (JSNum.fin (-1/2)) = true ∧
    jsEq (toInt32Num (toInt32Num (JSNum.fin (-1/2)))) (toInt32Num (JSNum.fin (-1/2))) = true :=
  ⟨by decide, toInt32_idempotent (JSNum.fin (-1/2)) (by decide)⟩

/-! ## C3: `processInSkippedMode` -/

theorem envAt_setEnv_self (s : CtxState) (i : Nat) (e : LexEnv) (h : i < s.envs.length) :
    (s.setEnv i e).envAt i = e := by
  simp only [CtxState.setEnv, CtxState.envAt]
  rw [List.getD_eq_getElem?_getD, List.getElem?_set_eq_of_lt e h, Option.getD_some]

theorem push_curEnv (s : CtxState) : (pushSkippedSection s).curEnv = s.curEnv := rfl

theorem push_len (s : CtxState) :
    (pushSkippedSection s).envs.length = s.envs.length := by
  simp [pushSkippedSection, CtxState.setEnv]

theorem push_unroll (s : CtxState) :
    (pushSkippedSection s).inRecursionUnroll = s.inRecursionUnroll := rfl

theorem push_skStack (s : CtxState) (h : s.curEnv < s.envs.length) :
    skStackOf (pushSkippedSection s) =
      (s.skippedModeCounter + 1) :: skStackOf s := by
  have hc : (pushSkippedSection s).curEnv = s.curEnv := rfl
  rw [skStackOf, hc]
  show ((s.setEnv s.curEnv _).envAt s.curEnv).skippedModeStack = _
  rw [envAt_setEnv_self s _ _ h]
  rfl

theorem pop_skStack (s : CtxState) (h : s.curEnv < s.envs.length) :
    skStackOf (popSkippedSection s) = (skStackOf s).tail := by
  have hc : (popSkippedSection s).curEnv = s.curEnv := rfl
  rw [skStackOf, hc]
  show ((s.setEnv s.curEnv _).envAt s.curEnv).skippedModeStack = _
  rw [envAt_setEnv_self s _ _ h]
  rfl

theorem runClosures_keeps (fs : List SkipClosure)
    (henv : ∀ f ∈ fs, ∀ t : CtxState, ((f t).1).curEnv = t.curEnv)
    (hmono : ∀ f ∈ fs, ∀ t : CtxState, t.envs.length ≤ ((f t).1).envs.length)
    (hstk : ∀ f ∈ fs, ∀ t : CtxState, skStackOf ((f t).1) = skStackOf t)
    (hunroll : ∀ f ∈ fs, ∀ t : CtxState, ((f t).1).inRecursionUnroll = t.inRecursionUnroll) :
    ∀ u : CtxState, (runClosures fs u).1.curEnv = u.curEnv ∧
      u.envs.length ≤ (runClosures fs u).1.envs.length ∧
      skStackOf (runClosures fs u).1 = skStackOf u ∧
      (runClosures fs u).1.inRecursionUnroll = u.inRecursionUnroll := by
  induction fs with
  | nil => intro u; exact ⟨rfl, Nat.le_refl _, rfl, rfl⟩
  | cons f fs ih =>
      intro u
      have hf1 := henv f (by simp) u
      have hf2 := hmono f (by simp) u
      have hf3 := hstk f (by simp) u
      have hf4 := hunroll f (by simp) u
      rw [runClosures]
      rcases hfu : f u with ⟨u1, e⟩
      rw [hfu] at hf1 hf2 hf3 hf4
      cases e with
      | some ex => exact ⟨hf1, hf2, hf3, hf4⟩
      | none =>
          have hrec := ih (fun g hg t => henv g (by simp [hg]) t)
            (fun g hg t => hmono g (by simp [hg]) t)
            (fun g hg t => hstk g (by simp [hg]) t)
            (fun g hg t => hunroll g (by simp [hg]) t) u1
          refine ⟨by rw [hrec.1]; exact hf1, Nat.le_trans hf2 hrec.2.1,
            by rw [hrec.2.2.1]; exact hf3, by rw [hrec.2.2.2]; exact hf4⟩

/-- C3: in a non-blacklisted file, `processInSkippedMode` pops the
skipped-section id it pushed on every exit path — restoring the current
environment record's skipped-mode stack — and a propagated exception is
never the engine's own sentinel unless the engine is unrolling recursion
(sentinel exceptions are swallowed).  The hypotheses state that the
analyzer closures leave the current context, its environment record's
skipped-mode stack, and the recursion-unroll flag as they found them (they
may grow the environment heap). -/
theorem processInSkippedMode_pops_and_swallows
    (fs : List SkipClosure) (s : CtxState)
    (hbl : s.blacklisted = false)
    (hrange : s.curEnv < s.envs.length)
    (henv : ∀ f ∈ fs, ∀ t : CtxState, ((f t).1).curEnv = t.curEnv)
    (hmono : ∀ f ∈ fs, ∀ t : CtxState, t.envs.length ≤ ((f t).1).envs.length)
    (hstk : ∀ f ∈ fs, ∀ t : CtxState, skStackOf ((f t).1) = skStackOf t)
    (hunroll : ∀ f ∈ fs, ∀ t : CtxState, ((f t).1).inRecursionUnroll = t.inRecursionUnroll) :
    skStackOf (processInSkippedMode fs s).1 = skStackOf s ∧
    (∀ e, (processInSkippedMode fs s).2 = some e →
      e.isCodeProcessorException = false ∨ s.inRecursionUnroll = true) := by
  have hguard : ¬ (s.blacklisted = true) := by rw [hbl]; simp
  have h1stk := push_skStack s hrange
  obtain ⟨hcur, hlen2, hstk2, hun2⟩ :=
    runClosures_keeps fs henv hmono hstk hunroll (pushSkippedSection s)
  rcases hrun : runClosures fs (pushSkippedSection s) with ⟨s2, exc⟩
  rw [hrun] at hcur hlen2 hstk2 hun2
  dsimp only at hcur hlen2 hstk2 hun2
  have hrange2 : s2.curEnv < s2.envs.length := by
    have hl := push_len s
    rw [hcur, push_curEnv]
    omega
  have h2stk : skStackOf (popSkippedSection s2) = skStackOf s := by
    rw [pop_skStack s2 hrange2, hstk2, h1stk]
    rfl
  have h2un : s2.inRecursionUnroll = s.inRecursionUnroll := by
    rw [hun2, push_unroll]
  rw [processInSkippedMode, if_neg hguard]
  simp only [hrun]
  cases exc with
  | none => exact ⟨h2stk, by intro e he; simp at he⟩
  | some e =>
      dsimp only
      split
      next hb =>
        refine ⟨h2stk, ?_⟩
        intro e2 he2
        have he2e : e2 = e := by simpa using he2.symm
        subst he2e
        rcases Bool.or_eq_true _ _ |>.mp hb with h | h
        · right; rw [← h2un]; exact h
        · left; simpa using h
      next hb =>
        exact ⟨h2stk, by intro e2 he2; simp at he2⟩

/-- C3 witness: a concrete closure throwing the code-processor sentinel is
swallowed and the skipped-mode stack is restored. -/
theorem processInSkippedMode_witness :
    skStackOf (processInSkippedMode [throwingClosure] ctx1).1 = skStackOf ctx1 ∧
    (∀ e, (processInSkippedMode [throwingClosure] ctx1).2 = some e →
      e.isCodeProcessorException = false ∨ ctx1.inRecursionUnroll = true) :=
  processInSkippedMode_pops_and_swallows [throwingClosure] ctx1 (by decide) (by decide)
    (by intro f hf t; simp only [List.mem_singleton] at hf; subst hf; rfl)
    (by intro f hf t; simp only [List.mem_singleton] at hf; subst hf; exact Nat.le_refl _)
    (by intro f hf t; simp only [List.mem_singleton] at hf; subst hf; rfl)
    (by intro f hf t; simp only [List.mem_singleton] at hf; subst hf; rfl)

/-! ## Helper lemmas on the property list -/

theorem addPropertyUpd_name (s : CtxState) (o : ObjState) (d : PropDesc) (e : PEntry) :
    (addPropertyUpd s o d e).name = e.name := by
  rw [addPropertyUpd]
  by_cases h : (s.isLocalSkippedMode || !s.isSkippedLocalVal o.closure) = true <;> simp [h]

theorem addProperty_eq (s : CtxState) (o : ObjState) (p : String) (d : PropDesc) :
    addProperty s o p d =
      match lookupEntry o p with
      | some _ =>
          o.withProps (o.props.map fun e =>
            if e.name == p then addPropertyUpd s o d e else e)
      | none =>
          o.withProps (o.props ++
            [addPropertyUpd s o d ⟨p, PSlot.rawValue (Value.undefV s.curEnv), []⟩]) := by
  rw [addProperty, addPropertyUpd]
  rfl

theorem find?_name_map (l : List PEntry) (q : String) (g : PEntry → PEntry)
    (hg : ∀ e, (g e).name = e.name) :
    ((l.map g).find? fun e => e.name == q) = ((l.find? fun e => e.name == q).map g) := by
  rw [List.find?_map]
  have hpf : ((fun e : PEntry => e.name == q) ∘ g) = fun e : PEntry => e.name == q := by
    funext e
    simp [Function.comp, hg e]
  rw [hpf]

theorem props_withProps (o : ObjState) (ps : List PEntry) : (o.withProps ps).props = ps := by
  cases o; rfl

theorem typeTag_withProps (o : ObjState) (ps : List PEntry) :
    (o.withProps ps).typeTag = o.typeTag := by
  cases o; rfl

theorem extensible_withProps (o : ObjState) (ps : List PEntry) :
    (o.withProps ps).extensible = o.extensible := by
  cases o; rfl

theorem closure_withProps (o : ObjState) (ps : List PEntry) :
    (o.withProps ps).closure = o.closure := by
  cases o; rfl

theorem proto_withProps (o : ObjState) (ps : List PEntry) :
    (o.withProps ps).proto = o.proto := by
  cases o; rfl

theorem lookupEntry_addProperty_self (s : CtxState) (o : ObjState) (p : String) (d : PropDesc) :
    lookupEntry (addProperty s o p d) p =
      some (addPropertyUpd s o d
        ((lookupEntry o p).getD ⟨p, PSlot.rawValue (Value.undefV s.curEnv), []⟩)) := by
  have hg : ∀ e : PEntry,
      ((fun e => if e.name == p then addPropertyUpd s o d e else e) e).name = e.name := by
    intro e
    by_cases h : (e.name == p) = true <;> simp [h, addPropertyUpd_name]
  rw [addProperty_eq]
  cases hle : lookupEntry o p with
  | some e =>
      have h2 : List.find? (fun x : PEntry => x.name == p) o.props = some e := hle
      have hename : (e.name == p) = true := by simpa using List.find?_some h2
      dsimp only
      rw [lookupEntry, props_withProps, find?_name_map o.props p _ hg, h2]
      simp [hename]
      intro h
      exact absurd (by simpa using hename) h
  | none =>
      have h2 : List.find? (fun x : PEntry => x.name == p) o.props = none := hle
      have hu : ((addPropertyUpd s o d
          ⟨p, PSlot.rawValue (Value.undefV s.curEnv), []⟩).name == p) = true := by
        rw [addPropertyUpd_name]
        simp
      dsimp only
      rw [lookupEntry, props_withProps, List.find?_append, h2, Option.none_or]
      simp [List.find?_cons, hu]

theorem lookupEntry_addProperty_other (s : CtxState) (o : ObjState) (p q : String) (d : PropDesc)
    (hne : (q == p) = false) :
    lookupEntry (addProperty s o p d) q = lookupEntry o q := by
  have hg : ∀ e : PEntry,
      ((fun e => if e.name == p then addPropertyUpd s o d e else e) e).name = e.name := by
    intro e
    by_cases h : (e.name == p) = true <;> simp [h, addPropertyUpd_name]
  rw [addProperty_eq]
  cases hle : lookupEntry o p with
  | some e =>
      dsimp only
      rw [lookupEntry, props_withProps, find?_name_map o.props q _ hg, lookupEntry]
      cases hq : List.find? (fun x : PEntry => x.name == q) o.props with
      | none => rfl
      | some e2 =>
          have heq : (e2.name == q) = true := by simpa using List.find?_some hq
          have hnp : (e2.name == p) = false := by
            have h1 : e2.name = q := by simpa using heq
            rw [h1]; exact hne
          simp [hnp]
          intro h
          rw [h] at hnp
          simp at hnp
  | none =>
      have hu : ((addPropertyUpd s o d
          ⟨p, PSlot.rawValue (Value.undefV s.curEnv), []⟩).name == q) = false := by
        rw [addPropertyUpd_name]
        show (p == q) = false
        cases hqp : p == q with
        | false => rfl
        | true =>
            have : p = q := by simpa using hqp
            subst this
            simp at hne
      dsimp only
      rw [lookupEntry, props_withProps, List.find?_append]
      simp only [List.find?_cons, hu, List.find?_nil, Option.or_none]
      rfl

theorem primaryValue_addProperty_self (s : CtxState) (o : ObjState) (p : String) (d : PropDesc)
    (hroute : (s.isLocalSkippedMode || !s.isSkippedLocalVal o.closure) = false) :
    primaryValue (addProperty s o p d) p = d.value := by
  rw [primaryValue, lookupEntry_addProperty_self, addPropertyUpd, if_neg (by rw [hroute]; simp)]
  rfl

theorem typeTag_addProperty (s : CtxState) (o : ObjState) (p : String) (d : PropDesc) :
    (addProperty s o p d).typeTag = o.typeTag := by
  rw [addProperty_eq]
  cases lookupEntry o p <;> cases o <;> rfl

theorem dopFail_obj (s : CtxState) (o : ObjState) (evs : List REvent) (tf : Bool) :
    dopSuccess (dopFail s o evs tf) = false ∧ dopObj (dopFail s o evs tf) = o := by
  rw [dopFail]
  cases tf with
  | false => simp [dopSuccess, dopObj]
  | true =>
      cases handleRecoverableNativeException s <;> simp [dopSuccess, dopObj]

theorem getOwnProperty_none (s : CtxState) (o : ObjState) (p : String)
    (htag : (o.typeTag == "Unknown") = false) (hown : lookupEntry o p = none) :
    getOwnProperty s o p = none := by
  rw [getOwnProperty, if_neg (by rw [htag]; simp), hown]
  rfl

/-! ## C1: `defineOwnProperty` on a non-extensible object -/

/-- C1 counterexample: on a non-extensible object with no own property
`p`, defining `p` from a data descriptor whose value is Unknown succeeds —
the early Unknown branch returns `true` and adds `p` before the
extensibility check can run.  The claim says every such call returns
`false` and adds nothing. -/
theorem defineOwnProperty_not_extensible_counterexample :
    oC1.extensible = false ∧ lookupEntry oC1 "p" = none ∧
    typeOf (Value.unknownV 7 0) = "Unknown" ∧
    dopSuccess (defineOwnProperty ctx1 oC1 "p" descC1 false false) = true ∧
    (lookupEntry (dopObj (defineOwnProperty ctx1 oC1 "p" descC1 false false)) "p").isSome = true := by
  decide

/-- C1 (amended): for a non-extensible, Object-tagged object without own
property `p`: when the descriptor is not a data descriptor whose
(closure-updated, defaulted) value is Unknown, non-local, or written inside
an ambiguous block, `defineOwnProperty` does not succeed and leaves the
object unchanged; but when it is, the call succeeds and `p` is added
(holding Unknown), the extensibility check never running. -/
theorem defineOwnProperty_not_extensible (s : CtxState) (o : ObjState) (p : String)
    (desc : PropDesc) (tf se : Bool)
    (htag : (o.typeTag == "Unknown") = false)
    (hown : lookupEntry o p = none)
    (hext : o.extensible = false) :
    ((isDataDescriptor (some desc) &&
        dataDescForcesUnknown s
          (s.updateClosure (desc.value.getD (Value.undefV s.curEnv)) o.closure)) = false →
      dopSuccess (defineOwnProperty s o p desc tf se) = false ∧
      dopObj (defineOwnProperty s o p desc tf se) = o) ∧
    (s.exactMode = false →
      (isDataDescriptor (some desc) &&
        dataDescForcesUnknown s
          (s.updateClosure (desc.value.getD (Value.undefV s.curEnv)) o.closure)) = true →
      dopSuccess (defineOwnProperty s o p desc tf se) = true ∧
      (lookupEntry (dopObj (defineOwnProperty s o p desc tf se)) p).isSome = true) := by
  have hgop : getOwnProperty s o p = none := getOwnProperty_none s o p htag hown
  by_cases hd : isDataDescriptor (some desc) = true
  · constructor
    · intro hC
      rw [hd] at hC
      simp only [Bool.true_and] at hC
      rw [defineOwnProperty]
      simp only [hgop, hd, if_pos, Option.isNone_none, Bool.true_and, hext]
      rw [if_neg (by simp [hC])]
      rw [if_pos (by simp)]
      exact ⟨(dopFail_obj s o [] tf).1, (dopFail_obj s o [] tf).2⟩
    · intro _ hC
      rw [hd] at hC
      simp only [Bool.true_and] at hC
      rw [defineOwnProperty]
      simp only [hgop, hd, if_pos, Option.isNone_none, Bool.true_and]
      rw [if_pos (by simp [hC])]
      refine ⟨rfl, ?_⟩
      show (lookupEntry (addProperty s o p _) p).isSome = true
      rw [lookupEntry_addProperty_self]
      rfl
  · have hdf : isDataDescriptor (some desc) = false := by
      cases h : isDataDescriptor (some desc) with
      | true => exact absurd h hd
      | false => rfl
    constructor
    · intro _
      rw [defineOwnProperty]
      simp only [hgop, hdf, Bool.false_and, Bool.false_eq_true, if_false, Option.isNone_none,
        Bool.true_and, hext]
      rw [if_pos (by simp)]
      exact ⟨(dopFail_obj s o [] tf).1, (dopFail_obj s o [] tf).2⟩
    · intro _ hC
      rw [hdf] at hC
      simp at hC

/-- C1 witness: the amended statement applied at a concrete non-extensible
object and an ordinary (local, known) data descriptor: the define fails and
the object is unchanged. -/
theorem defineOwnProperty_not_extensible_witness :
    dopSuccess (defineOwnProperty ctx1 oC1 "p"
      { value := some (Value.numV (JSNum.fin 1) 0) } false false) = false ∧
    dopObj (defineOwnProperty ctx1 oC1 "p"
      { value := some (Value.numV (JSNum.fin 1) 0) } false false) = oC1 :=
  (defineOwnProperty_not_extensible ctx1 oC1 "p"
      { value := some (Value.numV (JSNum.fin 1) 0) } false false
      (by decide) (by decide) (by decide)).1 (by decide)

/-! ## C2: `setMutableBinding` routing -/

theorem find?_assocSet (l : List (String × Binding)) (n : String) (b : Binding) :
    ((assocSet l n b).find? fun kv => kv.1 == n) = some (n, b) := by
  rw [assocSet]
  by_cases h : (l.any fun kv => kv.1 == n) = true
  · rw [if_pos h]
    induction l with
    | nil => simp at h
    | cons a l ih =>
        by_cases ha : (a.1 == n) = true
        · have h1 : (if (a.1 == n) = true then (n, b) else a) = (n, b) := by rw [if_pos ha]
          have h2 : (((n, b) : String × Binding).1 == n) = true := by simp
          simp only [List.map_cons, List.find?_cons, h1, h2]
        · have ha2 : (a.1 == n) = false := by
            cases h2 : a.1 == n with
            | true => exact absurd h2 ha
            | false => rfl
          have hl : (l.any fun kv => kv.1 == n) = true := by
            simp only [List.any_cons, ha2, Bool.false_or] at h
            exact h
          rw [List.map_cons,
            show (if (a.1 == n) = true then (n, b) else a) = a from by
              rw [if_neg (by rw [ha2]; simp)],
            List.find?_cons]
          simp only [ha2]
          exact ih hl
  · rw [if_neg h]
    have hnone : (l.find? fun kv => kv.1 == n) = none := by
      rw [List.find?_eq_none]
      intro a ha
      intro hcon
      exact h (List.any_eq_true.mpr ⟨a, ha, hcon⟩)
    rw [List.find?_append, hnone, Option.none_or]
    simp [List.find?_cons]

theorem lookupBinding_setBinding_self (s : CtxState) (env : Nat) (n : String) (b : Binding)
    (h : env < s.envs.length) :
    lookupBinding (setBinding s env n b) env n = some b := by
  rw [setBinding, lookupBinding, envAt_setEnv_self _ _ _ h]
  show ((assocSet (s.envAt env).bindings n b).find? fun kv => kv.1 == n).map (·.2) = some b
  rw [find?_assocSet]
  rfl

theorem noSkip_local (s : CtxState) (hs : s.isSkippedMode = false) (hst : s.stack ≠ []) :
    s.isLocalSkippedMode = false := by
  have h0 : (s.stack.any fun c =>
      decide ((s.envAt c.lexicalEnvironment).skippedModeStack ≠ [])) = false := hs
  have hall : ∀ x ∈ s.stack,
      (decide ((s.envAt x.lexicalEnvironment).skippedModeStack ≠ [])) = false := by
    intro x hx
    have h1 := List.any_eq_false.mp h0 x hx
    simpa using h1
  cases hstack : s.stack with
  | nil => exact absurd hstack hst
  | cons a l =>
      have ha := hall a (by rw [hstack]; simp)
      rw [CtxState.isLocalSkippedMode, CtxState.curEnv, CtxState.currentCtx, hstack]
      simpa using ha

theorem noSkip_skippedLocal (s : CtxState) (hs : s.isSkippedMode = false) (c : Nat) :
    s.isSkippedLocalVal c = true := by
  have h0 : (s.stack.any fun c =>
      decide ((s.envAt c.lexicalEnvironment).skippedModeStack ≠ [])) = false := hs
  have hall : ∀ x ∈ s.stack,
      (decide ((s.envAt x.lexicalEnvironment).skippedModeStack ≠ [])) = false := by
    intro x hx
    have h1 := List.any_eq_false.mp h0 x hx
    simpa using h1
  rw [CtxState.isSkippedLocalVal]
  have : ∀ l : List Ctx, (∀ x ∈ l,
      (decide ((s.envAt x.lexicalEnvironment).skippedModeStack ≠ [])) = false) →
      CtxState.isSkippedLocalVal.go s c l = true := by
    intro l
    induction l with
    | nil => intro _; rfl
    | cons a l ih =>
        intro h
        rw [CtxState.isSkippedLocalVal.go]
        by_cases hc : a.lexicalEnvironment = c
        · rw [if_pos hc]
        · rw [if_neg hc, if_neg (by rw [h a (by simp)]; simp)]
          exact ih fun x hx => h x (by simp [hx])
  exact this s.stack hall

/-- C2 counterexample: skipped mode is active (in the outer context's
environment record), yet `setMutableBinding` writes the primary slot of the
binding — the current context is not in local skipped mode and the
binding's current value is skipped-local, so routing picks the primary
slot.  The claim says skipped-mode-active writes go only to
`alternateValues`. -/
theorem setMutableBinding_skipped_counterexample :
    CtxState.isSkippedMode ctxC2 = true ∧
    smbValueAfter (setMutableBinding ctxC2 1 "x" (Value.numV (JSNum.fin 5) 1) false) 1 "x" =
      some (Value.numV (JSNum.fin 5) 1) ∧
    smbAltAfter (setMutableBinding ctxC2 1 "x" (Value.numV (JSNum.fin 5) 1) false) 1 "x" =
      some [] := by
  decide

/-- C2 (amended): for an existing mutable binding, the write goes to
`alternateValues[getSkippedSection()]` exactly when the current context's
record is in skipped mode or the binding's current value is not
skipped-local — leaving the primary slot unchanged; otherwise (including
some states where skipped mode is active only in an outer context) the
primary slot is written, with Unknown stored iff `v` is Unknown, the current
value is not local, or the block is ambiguous.  When no skipped mode is
active anywhere, the primary path is always taken. -/
theorem setMutableBinding_routing (s : CtxState) (env : Nat) (n : String) (v : Value)
    (strict : Bool) (b : Binding)
    (hb : lookupBinding s env n = some b) (hmut : b.isMutable = true)
    (henv : env < s.envs.length) :
    ((s.isLocalSkippedMode || !s.isSkippedLocalVal (closureOf b.value)) = true →
      setMutableBinding s env n v strict =
        SMBResult.ret (setBinding s env n
          { b with alternateValues :=
              assocSet b.alternateValues s.getSkippedSection (smbNewVal s b.value v) }) ∧
      smbValueAfter (setMutableBinding s env n v strict) env n = some b.value) ∧
    ((s.isLocalSkippedMode || !s.isSkippedLocalVal (closureOf b.value)) = false →
      setMutableBinding s env n v strict =
        SMBResult.ret (setBinding s env n { b with value := smbNewVal s b.value v }) ∧
      smbAltAfter (setMutableBinding s env n v strict) env n = some b.alternateValues) ∧
    (s.isSkippedMode = false → s.stack ≠ [] →
      (s.isLocalSkippedMode || !s.isSkippedLocalVal (closureOf b.value)) = false) := by
  have hsm : setMutableBinding s env n v strict = SMBResult.ret (smbWrite s env n v) := by
    rw [setMutableBinding]
    simp only [hb, hmut, Bool.not_true, Bool.false_eq_true, if_false]
  refine ⟨?_, ?_, ?_⟩
  · intro hroute
    have hw : smbWrite s env n v =
        setBinding s env n
          { b with alternateValues :=
              assocSet b.alternateValues s.getSkippedSection (smbNewVal s b.value v) } := by
      rw [smbWrite]
      simp only [hb, hroute, if_pos]
    refine ⟨by rw [hsm, hw], ?_⟩
    rw [hsm, hw, smbValueAfter, lookupBinding_setBinding_self _ _ _ _ henv]
    rfl
  · intro hroute
    have hw : smbWrite s env n v =
        setBinding s env n { b with value := smbNewVal s b.value v } := by
      rw [smbWrite]
      simp only [hb, hroute, Bool.false_eq_true, if_false]
    refine ⟨by rw [hsm, hw], ?_⟩
    rw [hsm, hw, smbAltAfter, lookupBinding_setBinding_self _ _ _ _ henv]
    rfl
  · intro hs hst
    rw [noSkip_local s hs hst, noSkip_skippedLocal s hs, Bool.not_true, Bool.false_or]

/-- C2 witness: the amended routing applied at the concrete two-environment
state: the condition is false there, so the primary slot is written. -/
theorem setMutableBinding_routing_witness :
    smbAltAfter (setMutableBinding ctxC2 1 "x" (Value.numV (JSNum.fin 5) 1) false) 1 "x" =
      some [] :=
  ((setMutableBinding_routing ctxC2 1 "x" (Value.numV (JSNum.fin 5) 1) false
      { value := Value.numV (JSNum.fin 3) 1 }
      (by decide) (by decide) (by decide)).2.1 (by decide)).2

/-! ## C6: the ArrayType length override -/

/-- Every branch of `defineOwnProperty` leaves the object unchanged or
stores one descriptor under `p` via `_addProperty`. -/
theorem dopExisting_obj_cases (s : CtxState) (o : ObjState) (p : String)
    (desc cur : PropDesc) (ks : KeySet) (tf : Bool) (evs : List REvent) :
    dopObj (dopExisting s o p desc cur ks tf evs) = o ∨
    ∃ d2, dopObj (dopExisting s o p desc cur ks tf evs) = addProperty s o p d2 := by
  rw [dopExisting]
  split
  · exact Or.inl rfl
  · split
    · exact Or.inl rfl
    · split
      · exact Or.inl (dopFail_obj _ _ _ _).2
      · split
        · exact Or.inl (dopFail_obj _ _ _ _).2
        · exact Or.inr ⟨_, rfl⟩

theorem dopObj_cases (s : CtxState) (o : ObjState) (p : String) (desc : PropDesc)
    (tf se : Bool) :
    dopObj (defineOwnProperty s o p desc tf se) = o ∨
    ∃ d2, dopObj (defineOwnProperty s o p desc tf se) = addProperty s o p d2 := by
  rw [defineOwnProperty]
  repeat' split
  all_goals first
    | exact Or.inl rfl
    | exact Or.inl (dopFail_obj _ _ _ _).2
    | exact Or.inr ⟨_, rfl⟩
    | exact dopExisting_obj_cases _ _ _ _ _ _ _ _

theorem dopFail_noThrow (s : CtxState) (o : ObjState) (evs : List REvent) (tf : Bool)
    (h : handleRecoverableNativeException s ≠ HREAction.throwNative) :
    dopThrown (dopFail s o evs tf) = false := by
  rw [dopFail]
  cases tf with
  | false => rfl
  | true =>
      cases hh : handleRecoverableNativeException s with
      | throwNative => exact absurd hh h
      | report => rfl
      | doNothing => rfl

/-- When `handleRecoverableNativeException` does not throw (skipped mode, or
recovery on and exact mode off), `defineOwnProperty` never throws. -/
theorem dopExisting_noThrow (s : CtxState) (o : ObjState) (p : String)
    (desc cur : PropDesc) (ks : KeySet) (tf : Bool) (evs : List REvent)
    (h : handleRecoverableNativeException s ≠ HREAction.throwNative) :
    dopThrown (dopExisting s o p desc cur ks tf evs) = false := by
  rw [dopExisting]
  split
  · rfl
  · split
    · rfl
    · split
      · exact dopFail_noThrow _ _ _ _ h
      · split
        · exact dopFail_noThrow _ _ _ _ h
        · rfl

/-- When `handleRecoverableNativeException` does not throw (skipped mode, or
recovery on and exact mode off), `defineOwnProperty` never throws. -/
theorem dop_noThrow (s : CtxState) (o : ObjState) (p : String) (desc : PropDesc)
    (tf se : Bool)
    (h : handleRecoverableNativeException s ≠ HREAction.throwNative) :
    dopThrown (defineOwnProperty s o p desc tf se) = false := by
  rw [defineOwnProperty]
  repeat' split
  all_goals first
    | rfl
    | exact dopFail_noThrow _ _ _ _ h
    | exact dopExisting_noThrow _ _ _ _ _ _ _ _ h

theorem getProperty_own (s : CtxState) (o : ObjState) (p : String) (d : PropDesc)
    (h : getOwnProperty s o p = some d) : getProperty s o p = some d := by
  cases o with
  | mk t e c ps pr =>
      rw [getProperty, h]

/-- Shared helper for C6: under normal-mode, recovering, non-exact options
the recoverable-exception handler reports instead of throwing. -/
theorem hre_not_throw (s : CtxState) (hs : s.isSkippedMode = false)
    (hnr : s.nativeExceptionRecovery = true) (hx : s.exactMode = false) :
    handleRecoverableNativeException s ≠ HREAction.throwNative := by
  simp [handleRecoverableNativeException, hs, hnr, hx]

/-- Naturals up to `2^53` convert to doubles exactly (`2^53` itself is
representable). -/
theorem roundNatToDoubleNat_exact (n : Nat) (h : n ≤ 2 ^ 53) :
    roundNatToDoubleNat n = some n := by
  rcases Nat.lt_or_ge n (2 ^ 53) with h1 | h1
  · rw [roundNatToDoubleNat, if_pos h1]
  · have he : n = 2 ^ 53 := le_antisymm h h1
    subst he
    decide

theorem roundNatToDouble_exact (n : Nat) (h : n ≤ 2 ^ 53) :
    roundNatToDouble n = JSNum.fin (n : ℚ) := by
  rw [roundNatToDouble, roundNatToDoubleNat_exact n h]

/-- The double successor is the exact successor below `2^53`. -/
theorem doubleAddOne_natCast (n : Nat) (h : n + 1 ≤ 2 ^ 53) :
    doubleAddOne (JSNum.fin (n : ℚ)) = JSNum.fin ((n + 1 : Nat) : ℚ) := by
  have h1 : ((n : ℚ)).num.toNat = n := by simp
  simp only [doubleAddOne, h1]
  exact roundNatToDouble_exact _ h

/-- C6 counterexample, in two parts.  (1) On a frozen (non-extensible)
array with `length = 0`, `defineOwnProperty('0', {value:5, ...})` FAILS in
the base `ObjectType` operation — the property `'0'` is not added — yet the
ArrayType override still updates `length` to 1, because the override never
looks at the base call's return value; the claim says the length is updated
exactly when the base operation succeeds.  (2) On an extensible array with
`length = 0` and the index `i = 2^53`, the stored `parsedP + 1` is computed
in doubles: `2^53 + 1` rounds back to `2^53`, so the new length EQUALS `i`;
the claim says the length is always strictly greater than `i`. -/
theorem arrayDefineOwnProperty_ignores_base_counterexample :
    dopSuccess (defineOwnProperty ctx1 aC6 "0" descC6 false false) = false ∧
    lookupEntry (adopObj (arrayDefineOwnProperty ctx1 aC6 "0" descC6 false false)) "0" = none ∧
    lengthNum (adopObj (arrayDefineOwnProperty ctx1 aC6 "0" descC6 false false)) = some 1 ∧
    lengthNum (adopObj (arrayDefineOwnProperty ctx1 aBig "9007199254740992" descC6 false false)) =
      some ((9007199254740992 : Nat) : ℚ) ∧
    ∀ q2 : ℚ,
      lengthNum (adopObj (arrayDefineOwnProperty ctx1 aBig "9007199254740992" descC6
        false false)) = some q2 → ¬ ((9007199254740992 : Nat) : ℚ) < q2 := by
  refine ⟨by decide, by decide, ?_, ?_, ?_⟩
  · have h : lengthNum (adopObj (arrayDefineOwnProperty ctx1 aC6 "0" descC6 false false)) =
        some ((1 : Nat) : ℚ) := by decide
    rw [h]
    norm_num
  · decide
  · intro q2 h2
    have h : lengthNum (adopObj (arrayDefineOwnProperty ctx1 aBig "9007199254740992" descC6
        false false)) = some ((9007199254740992 : Nat) : ℚ) := by decide
    rw [h] at h2
    have h3 : ((9007199254740992 : Nat) : ℚ) = q2 := by simpa using h2
    rw [← h3]
    exact lt_irrefl _

/-- C6 (amended): for an array-shaped object whose `length` holds a finite
Number `q`, in normal mode with native-exception recovery on and exact mode
off, and for an index whose exact value `n` is below `2^53` (so `parseInt`
and the `+ 1` are exact in doubles), `defineOwnProperty(String(n), desc,
throwFlag)` never throws, the new `length` is `n + 1` when `n >= q` and
stays `q` otherwise — in either case strictly greater than `n` — and this
happens whatever the base `ObjectType` operation returned: the override
discards the base result.  From `2^53` on the stored length is the double
rounding of `parsedP + 1`, which can equal the index (see the
counterexample at `2^53`). -/
theorem arrayDefineOwnProperty_length (s : CtxState) (o : ObjState) (p : String)
    (desc : PropDesc) (tf se : Bool) (n : Nat) (q : ℚ) (cl : Nat)
    (alts : List (Option Nat × PSlot))
    (hst : s.stack ≠ []) (hs : s.isSkippedMode = false)
    (hnr : s.nativeExceptionRecovery = true) (hx : s.exactMode = false)
    (htag : (o.typeTag == "Unknown") = false)
    (hdig : positiveIntegerTest p = true) (hp : parseIntExact p = some n)
    (hn : n < 2 ^ 53)
    (hlen : lookupEntry o "length" =
      some ⟨"length", PSlot.pdesc
        { value := some (Value.numV (JSNum.fin q) cl), writable := some true,
          enumerable := some false, configurable := some false }, alts⟩) :
    adopAbrupt (arrayDefineOwnProperty s o p desc tf se) = false ∧
    lengthNum (adopObj (arrayDefineOwnProperty s o p desc tf se)) =
      some (if (n : ℚ) ≥ q then (n : ℚ) + 1 else q) ∧
    ∀ q2 : ℚ, lengthNum (adopObj (arrayDefineOwnProperty s o p desc tf se)) = some q2 →
      (n : ℚ) < q2 := by
  have hpl : p ≠ "length" := by
    intro he
    rw [he] at hdig
    exact absurd hdig (by decide)
  have hlp : ("length" == p) = false := by
    cases h : ("length" == p) with
    | false => rfl
    | true =>
        have h1 : "length" = p := by simpa using h
        exact absurd h1.symm hpl
  have hnothrow : handleRecoverableNativeException s ≠ HREAction.throwNative :=
    hre_not_throw s hs hnr hx
  have hpd : parseIntDigits p = some (JSNum.fin (n : ℚ)) := by
    rw [parseIntDigits, hp, Option.map_some', roundNatToDouble_exact n (le_of_lt hn)]
  have hsucc : doubleAddOne (JSNum.fin (n : ℚ)) = JSNum.fin ((n + 1 : Nat) : ℚ) :=
    doubleAddOne_natCast n hn
  cases hdop : defineOwnProperty s o p desc tf se with
  | thrownNative t o1 evs =>
      have hth := dop_noThrow s o p desc tf se hnothrow
      rw [hdop] at hth
      simp [dopThrown] at hth
  | ret b o1 evs =>
      have hobj := dopObj_cases s o p desc tf se
      rw [hdop] at hobj
      simp only [dopObj] at hobj
      have htag1 : (o1.typeTag == "Unknown") = false := by
        rcases hobj with h | ⟨d2, h⟩
        · rw [h]; exact htag
        · rw [h, typeTag_addProperty]; exact htag
      have hlen1 : lookupEntry o1 "length" =
          some ⟨"length", PSlot.pdesc
            { value := some (Value.numV (JSNum.fin q) cl), writable := some true,
              enumerable := some false, configurable := some false }, alts⟩ := by
        rcases hobj with h | ⟨d2, h⟩
        · rw [h]; exact hlen
        · rw [h, lookupEntry_addProperty_other s o p "length" d2 hlp]; exact hlen
      have hgown : getOwnProperty s o1 "length" = some
          { value := some (Value.numV (JSNum.fin q) cl), writable := some true,
            enumerable := some false, configurable := some false } := by
        rw [getOwnProperty, if_neg (by simp [htag1]), hlen1]
        simp [copySlot, isDataDescriptor]
      have hget : objGet s o1 "length" =
          GetResult.value (Value.numV (JSNum.fin q) cl) [REvent.propertyReferenced "length"] := by
        rw [objGet]
        simp only [getProperty_own s o1 "length" _ hgown]
        simp [isDataDescriptor]
      have hroute : (s.isLocalSkippedMode || !s.isSkippedLocalVal o1.closure) = false := by
        rw [noSkip_local s hs hst, noSkip_skippedLocal s hs]
        rfl
      by_cases hge : (n : ℚ) ≥ q
      · have hr : arrayDefineOwnProperty s o p desc tf se =
            ADOPResult.ret b
              (addProperty s o1 "length"
                { value := some (Value.numV (JSNum.fin ((n + 1 : Nat) : ℚ)) s.curEnv),
                  writable := some true, enumerable := some false,
                  configurable := some false })
              (evs ++ [REvent.propertyReferenced "length"]) := by
          rw [arrayDefineOwnProperty, hdop]
          dsimp only
          rw [if_pos hdig, hget]
          dsimp only
          rw [hpd]
          dsimp only
          rw [if_pos (by simp [jsGeVal, jsGeNum, hge]), hsucc]
        have hlnum : lengthNum (adopObj (arrayDefineOwnProperty s o p desc tf se)) =
            some ((n + 1 : Nat) : ℚ) := by
          rw [hr]
          show lengthNum (addProperty s o1 "length" _) = _
          rw [lengthNum, primaryValue_addProperty_self s o1 "length" _ hroute]
        refine ⟨by rw [hr]; rfl, ?_, ?_⟩
        · rw [hlnum, if_pos hge]
          norm_cast
        · intro q2 h2
          rw [hlnum] at h2
          have h3 : ((n + 1 : Nat) : ℚ) = q2 := by simpa using h2
          rw [← h3]
          exact_mod_cast Nat.lt_succ_self n
      · have hr : arrayDefineOwnProperty s o p desc tf se =
            ADOPResult.ret b o1 (evs ++ [REvent.propertyReferenced "length"]) := by
          rw [arrayDefineOwnProperty, hdop]
          dsimp only
          rw [if_pos hdig, hget]
          dsimp only
          rw [hpd]
          dsimp only
          rw [if_neg (by simp [jsGeVal, jsGeNum, hge])]
        have hlnum : lengthNum (adopObj (arrayDefineOwnProperty s o p desc tf se)) =
            some q := by
          rw [hr]
          show lengthNum o1 = _
          rw [lengthNum, primaryValue, hlen1]
          rfl
        refine ⟨by rw [hr]; rfl, ?_, ?_⟩
        · rw [hlnum, if_neg hge]
        · intro q2 h2
          rw [hlnum] at h2
          have h3 : q = q2 := by simpa using h2
          rw [← h3]
          exact lt_of_not_ge hge

/-- C6 witness: the amended theorem at the frozen array `aC6`
(`length = 0`), property `'0'`, descriptor `{value: 5, ...}`. -/
theorem arrayDefineOwnProperty_length_witness :
    adopAbrupt (arrayDefineOwnProperty ctxC6 aC6 "0" descC6 false false) = false ∧
    lengthNum (adopObj (arrayDefineOwnProperty ctxC6 aC6 "0" descC6 false false)) =
      some (if ((0 : Nat) : ℚ) ≥ (0 : ℚ) then ((0 : Nat) : ℚ) + 1 else (0 : ℚ)) ∧
    ∀ q2 : ℚ, lengthNum (adopObj (arrayDefineOwnProperty ctxC6 aC6 "0" descC6 false false)) =
      some q2 → ((0 : Nat) : ℚ) < q2 :=
  arrayDefineOwnProperty_length ctxC6 aC6 "0" descC6 false false 0 0 0 []
    (by decide) (by decide) rfl rfl (by decide) (by decide) (by decide) (by decide)
    (by decide)

/-! ## C5: `putValue` on an unresolvable reference -/

theorem withClosure_self (v : Value) (c : Nat) (h : Value.closureOf v = c) :
    Value.withClosure v c = v := by
  cases v <;> simp [Value.closureOf] at h <;> simp [Value.withClosure, h]

/-- `_updateClosure` leaves a value alone when its creation closure already
is the target environment. -/
theorem updateClosure_self (s : CtxState) (v : Value) (c : Nat)
    (h : Value.closureOf v = c) : s.updateClosure v c = v := by
  rw [CtxState.updateClosure]
  split
  · exact withClosure_self v c h
  · rfl

/-- `getProperty` finds nothing on an object with no matching own property
and no prototype. -/
theorem getProperty_no_own (s : CtxState) (o : ObjState) (p : String)
    (hgown : getOwnProperty s o p = none) (hpr : o.proto = none) :
    getProperty s o p = none := by
  cases o with
  | mk t e c ps pr =>
      have hpr2 : pr = none := hpr
      subst hpr2
      rw [getProperty, hgown]
      rfl

/-- `canPut` on an object with no matching own property and no prototype is
the extensible flag. -/
theorem canPut_no_own (s : CtxState) (o : ObjState) (p : String)
    (hgown : getOwnProperty s o p = none) (hpr : o.proto = none) :
    canPut s o p = CanPutR.b o.extensible := by
  cases o with
  | mk t e c ps pr =>
      have hpr2 : pr = none := hpr
      subst hpr2
      rw [canPut, hgown]

/-- C5 counterexample: assigning `5` through an unresolvable non-strict
reference named `x` when the global object already has a NON-WRITABLE own
`x` holding `0`: the internal `put` (called with `throwFlag = false`) fails
silently, so no binding holding `5` is created — `x` still holds `0` — yet
`undeclaredGlobalVariableCreated` fires anyway.  The claim says the call
creates a binding holding the assigned value. -/
theorem putValue_unresolvable_counterexample :
    pvrEvents (putValue ctx1 gC5 (PutValueArg.reference refC5)
        (Value.numV (JSNum.fin 5) 0)) =
      [REvent.undeclaredGlobalVariableCreated "x"] ∧
    primaryValue (pvrGlobal (putValue ctx1 gC5 (PutValueArg.reference refC5)
        (Value.numV (JSNum.fin 5) 0))) "x" =
      some (Value.numV (JSNum.fin 0) 0) := by
  decide

/-- C5 (amended): assigning through an unresolvable non-strict reference
performs a global `put` with `throwFlag = false` and then fires
`undeclaredGlobalVariableCreated` whether or not that `put` wrote anything;
when the global object accepts the write (no own property of that name, no
prototype, extensible, value local to its creation scope, normal
non-ambiguous mode), the binding is created holding the assigned value, with
`propertySet` and `propertyDefined` fired first.  With `strictReference`
true the call throws a ReferenceError instead. -/
theorem putValue_unresolvable_global (s : CtxState) (g : ObjState) (p : String)
    (w : Value) (c0 : Nat)
    (hst : s.stack ≠ []) (hs : s.isSkippedMode = false)
    (hamb : s.isAmbiguousBlock = false)
    (htag : (g.typeTag == "Unknown") = false)
    (hown : lookupEntry g p = none) (hpr : g.proto = none) (hext : g.extensible = true)
    (hw : (typeOf w == "Unknown") = false)
    (hcl : Value.closureOf w = g.closure)
    (hloc : s.isLocalVal (Value.closureOf w) = true) :
    putValue s g (PutValueArg.reference ⟨RefBase.value (Value.undefV c0), p, false⟩) w =
      PutValueResult.done (addProperty s g p (fullDataDesc w))
        [REvent.propertySet p, REvent.propertyDefined p,
         REvent.undeclaredGlobalVariableCreated p] ∧
    primaryValue (pvrGlobal (putValue s g
        (PutValueArg.reference ⟨RefBase.value (Value.undefV c0), p, false⟩) w)) p =
      some w ∧
    putValue s g (PutValueArg.reference ⟨RefBase.value (Value.undefV c0), p, true⟩) w =
      PutValueResult.thrownNative "ReferenceError" g [] := by
  have hgown : getOwnProperty s g p = none := getOwnProperty_none s g p htag hown
  have hgp : getProperty s g p = none := getProperty_no_own s g p hgown hpr
  have hcpb : canPut s g p = CanPutR.b true := by
    rw [canPut_no_own s g p hgown hpr, hext]
  have hdup : s.updateClosure w g.closure = w := updateClosure_self s w g.closure hcl
  have hforce : dataDescForcesUnknown s w = false := by
    rw [dataDescForcesUnknown, hw, hloc, hamb]
    rfl
  have hdop : defineOwnProperty s g p
      { value := some w, writable := some true,
        enumerable := some true, configurable := some true } false false =
      DOPResult.ret true (addProperty s g p (fullDataDesc w))
        [REvent.propertyDefined p] := by
    rw [defineOwnProperty]
    simp only [isDataDescriptor, Option.isSome_some, Bool.true_or, Option.getD_some, hdup,
      hforce, Bool.and_false, hgown, Option.isNone_none, hext, Bool.not_true,
      Bool.and_true, Bool.true_and]
    rw [if_neg (by simp [hforce]), if_neg (by simp)]
    rw [if_neg (by simp [isAccessorDescriptor])]
    rw [buildNewDataProp]
    rfl
  have hput : put s g p w false false =
      PutResult.ret (addProperty s g p (fullDataDesc w))
        [REvent.propertySet p, REvent.propertyDefined p] := by
    rw [put, hcpb]
    dsimp only
    rw [if_neg (by simp), if_neg (by simp)]
    dsimp only
    rw [hgown]
    rw [if_neg (by simp [isDataDescriptor])]
    rw [hgp]
    rw [if_neg (by simp [isAccessorDescriptor])]
    rw [hdop]
    rfl
  have hmain : putValue s g
      (PutValueArg.reference ⟨RefBase.value (Value.undefV c0), p, false⟩) w =
      PutValueResult.done (addProperty s g p (fullDataDesc w))
        [REvent.propertySet p, REvent.propertyDefined p,
         REvent.undeclaredGlobalVariableCreated p] := by
    rw [putValue]
    dsimp only
    rw [if_pos (by rfl)]
    rw [if_neg (by simp)]
    rw [hput]
    rfl
  have hroute : (s.isLocalSkippedMode || !s.isSkippedLocalVal g.closure) = false := by
    rw [noSkip_local s hs hst, noSkip_skippedLocal s hs]
    rfl
  refine ⟨hmain, ?_, ?_⟩
  · rw [hmain]
    show primaryValue (addProperty s g p (fullDataDesc w)) p = some w
    rw [primaryValue_addProperty_self s g p _ hroute]
    rfl
  · rfl

/-- C5 witness: the amended theorem at an empty extensible global, name
`x`, value `5`. -/
theorem putValue_unresolvable_global_witness :
    putValue ctx1 gEmpty (PutValueArg.reference ⟨RefBase.value (Value.undefV 0), "x", false⟩)
        (Value.numV (JSNum.fin 5) 0) =
      PutValueResult.done (addProperty ctx1 gEmpty "x" (fullDataDesc (Value.numV (JSNum.fin 5) 0)))
        [REvent.propertySet "x", REvent.propertyDefined "x",
         REvent.undeclaredGlobalVariableCreated "x"] ∧
    primaryValue (pvrGlobal (putValue ctx1 gEmpty
        (PutValueArg.reference ⟨RefBase.value (Value.undefV 0), "x", false⟩)
        (Value.numV (JSNum.fin 5) 0))) "x" =
      some (Value.numV (JSNum.fin 5) 0) ∧
    putValue ctx1 gEmpty (PutValueArg.reference ⟨RefBase.value (Value.undefV 0), "x", true⟩)
        (Value.numV (JSNum.fin 5) 0) =
      PutValueResult.thrownNative "ReferenceError" gEmpty [] :=
  putValue_unresolvable_global ctx1 gEmpty "x" (Value.numV (JSNum.fin 5) 0) 0
    (by decide) (by decide) (by decide) (by decide) (by decide) rfl rfl (by decide)
    rfl (by decide)

end TiCP

